import Mathlib

/-!
# Verification of the HRAM cartridge filesystem driver

Shallow embedding of the C sources `cart_driver.c`, `cart_cache.c` and
`cart_client.c` of the HRAM-Filesystem-Driver repository, together with
proofs and refutations of the specification claims.

Machine integers are modelled as `Nat` (resp. `Int` for C `int` fields that
participate in signed arithmetic), with explicit `% 2 ^ w` reductions at the
points where the C types truncate.  Byte buffers are modelled as functions
`Nat → Nat` (a C pointer into a byte array); fallible code — in particular
code whose C original has undefined behaviour such as an out-of-bounds array
access or a NULL dereference — returns `Option`.
-/

/-! ## Wire codec (`cart_driver.c`, `generateBusRequest` / `readBusResponse`) -/

/-- The packed register structure `regstate` of `cart_driver.c`.  The C fields
are `uint8_t kyOne; uint16_t ctOne; uint16_t fmOne; uint8_t rt`. -/
structure regstate where
  kyOne : Nat
  ctOne : Nat
  fmOne : Nat
  rt : Nat
  deriving DecidableEq, Repr

/-- `generateBusRequest` of `cart_driver.c`: packs `regstate` into the 64-bit
bus word: `(kyOne << 56) + (ctOne << 31) + (fmOne << 15)`, the return code
zeroed.  The `% 2 ^ 8` / `% 2 ^ 16` reductions model the C field types
(`uint8_t` / `uint16_t`), and the final `% 2 ^ 64` the `uint64_t` word. -/
def generateBusRequest (r : regstate) : Nat :=
  (r.kyOne % 2 ^ 8 * 2 ^ 56 + r.ctOne % 2 ^ 16 * 2 ^ 31 + r.fmOne % 2 ^ 16 * 2 ^ 15) % 2 ^ 64

/-- `readBusResponse` of `cart_driver.c`: extracts the registers from a 64-bit
bus word by masking (`&` on `uint64_t`, modelled by `Nat.land`) and shifting;
the stores into the `uint8_t`/`uint16_t` fields of `regstate` truncate, which
the trailing `% 2 ^ 8` / `% 2 ^ 16` model. -/
def readBusResponse (busResponse : Nat) : regstate :=
  { kyOne := Nat.land busResponse 0xff00000000000000 / 2 ^ 56 % 2 ^ 8
    ctOne := Nat.land busResponse 0x7fff80000000 / 2 ^ 31 % 2 ^ 16
    fmOne := Nat.land busResponse 0x7fff8000 / 2 ^ 15 % 2 ^ 16
    rt := Nat.land busResponse 0x800000000000 / 2 ^ 47 % 2 ^ 8 }

/-- Modelled from the spec: the serialization of the 64-bit register word in
network byte order (`htonll64` of the missing `cart_network.h`; spec §3: "The
word is transmitted in network byte order", i.e. big-endian). -/
def beBytes (v : Nat) : List Nat :=
  [v / 2 ^ 56 % 2 ^ 8, v / 2 ^ 48 % 2 ^ 8, v / 2 ^ 40 % 2 ^ 8, v / 2 ^ 32 % 2 ^ 8,
   v / 2 ^ 24 % 2 ^ 8, v / 2 ^ 16 % 2 ^ 8, v / 2 ^ 8 % 2 ^ 8, v % 2 ^ 8]

/-- A bitmask selecting the `w` bits starting at bit `m` extracts a
division/modulus section of the number. -/
theorem land_section (x m w : Nat) :
    Nat.land x (2 ^ m * (2 ^ w - 1)) = x / 2 ^ m % 2 ^ w * 2 ^ m := by
  apply Nat.eq_of_testBit_eq
  intro i
  have h1 : 2 ^ m * (2 ^ w - 1) = (2 ^ w - 1) <<< m := by
    rw [Nat.shiftLeft_eq, Nat.mul_comm]
  have h2 : x / 2 ^ m % 2 ^ w * 2 ^ m = ((x >>> m) % 2 ^ w) <<< m := by
    rw [Nat.shiftLeft_eq, Nat.shiftRight_eq_div_pow]
  have h3 : Nat.land x ((2 ^ w - 1) <<< m) = x &&& (2 ^ w - 1) <<< m := rfl
  rw [h1, h2, h3, Nat.testBit_and, Nat.testBit_shiftLeft, Nat.testBit_shiftLeft,
    Nat.testBit_two_pow_sub_one, Nat.testBit_mod_two_pow, Nat.testBit_shiftRight]
  by_cases hmi : m ≤ i
  · have hge : (decide (i ≥ m)) = true := by simp [ge_iff_le, hmi]
    have hadd : m + (i - m) = i := by omega
    rw [hge, hadd]
    cases Nat.testBit x i <;> cases (decide (i - m < w)) <;> simp
  · have hge : (decide (i ≥ m)) = false := by simp [ge_iff_le]; omega
    rw [hge]
    simp

/-- C3 (confirmed).  Wire codec round-trip: for every opcode `op < 2 ^ 8`,
cartridge `cart < 2 ^ 16` and frame `frame < 2 ^ 16`, decoding the encoded
64-bit register word yields exactly `{op, cart, frame, ret = 0}`. -/
theorem wire_codec_roundtrip (op cart frame : Nat)
    (hop : op < 2 ^ 8) (hcart : cart < 2 ^ 16) (hframe : frame < 2 ^ 16) :
    readBusResponse (generateBusRequest ⟨op, cart, frame, 0⟩) =
      ⟨op, cart, frame, 0⟩ := by
  have e1 : (0xff00000000000000 : Nat) = 2 ^ 56 * (2 ^ 8 - 1) := by norm_num
  have e2 : (0x7fff80000000 : Nat) = 2 ^ 31 * (2 ^ 16 - 1) := by norm_num
  have e3 : (0x7fff8000 : Nat) = 2 ^ 15 * (2 ^ 16 - 1) := by norm_num
  have e4 : (0x800000000000 : Nat) = 2 ^ 47 * (2 ^ 1 - 1) := by norm_num
  have hv : generateBusRequest ⟨op, cart, frame, 0⟩ =
      op * 2 ^ 56 + cart * 2 ^ 31 + frame * 2 ^ 15 := by
    show (op % 2 ^ 8 * 2 ^ 56 + cart % 2 ^ 16 * 2 ^ 31 + frame % 2 ^ 16 * 2 ^ 15) % 2 ^ 64 =
      op * 2 ^ 56 + cart * 2 ^ 31 + frame * 2 ^ 15
    rw [Nat.mod_eq_of_lt hop, Nat.mod_eq_of_lt hcart, Nat.mod_eq_of_lt hframe]
    apply Nat.mod_eq_of_lt
    norm_num at hop hcart hframe ⊢
    omega
  unfold readBusResponse
  rw [hv, e1, e2, e3, e4, land_section, land_section, land_section, land_section]
  norm_num at hop hcart hframe ⊢
  refine ⟨?_, ?_, ?_, ?_⟩ <;> omega

/-- Witness for C3 at a concrete input. -/
theorem wire_codec_roundtrip_witness :
    readBusResponse (generateBusRequest ⟨3, 0x1234, 0x5678, 0⟩) =
      ⟨3, 0x1234, 0x5678, 0⟩ :=
  wire_codec_roundtrip 3 0x1234 0x5678 (by decide) (by decide) (by decide)

/-- C9 counterexample: the golden byte vector given by the spec for
`encode(3, 0x1234, 0x5678)` does not match the word the implementation
produces. -/
theorem wire_golden_vector_spec_wrong :
    beBytes (generateBusRequest ⟨3, 0x1234, 0x5678, 0⟩) ≠
      [0x03, 0x00, 0x00, 0x09, 0x1A, 0x2B, 0x38, 0x00] := by
  decide

/-- C9 (corrected): the actual big-endian serialization of
`encode(3, 0x1234, 0x5678)` is `[0x03, 0x00, 0x09, 0x1A, 0x2B, 0x3C, 0x00,
0x00]` (fields at shifts 56/31/15 per the implementation). -/
theorem wire_golden_vector :
    beBytes (generateBusRequest ⟨3, 0x1234, 0x5678, 0⟩) =
      [0x03, 0x00, 0x09, 0x1A, 0x2B, 0x3C, 0x00, 0x00] := by
  decide

/-! ## Frame cache (`cart_cache.c`) -/

/-- One byte buffer: a C pointer into a byte array. -/
abbrev Buf := Nat → Nat

/-- The `cachedFrame` structure of `cart_cache.c`. `frame`, `cartridge` and
`priority` are C `int`s (priorities stay non-negative but we keep `Int` for
`priority` since the C field is signed); `cache` is the `CART_FRAME_SIZE`
byte payload. -/
structure cachedFrame where
  frame : Nat
  cartridge : Nat
  cache : Buf
  priority : Int

/-- The module state of `cart_cache.c`: the `myCache` array (a function from
index to entry; only indices `< myMaxFrames` are meaningful), `myMaxFrames`
and `numberOfUnoccupiedFrames`.  Occupied entries live at indices
`[numberOfUnoccupiedFrames, myMaxFrames)`. -/
structure CacheState where
  myCache : Nat → cachedFrame
  myMaxFrames : Nat
  numberOfUnoccupiedFrames : Nat

/-- `set_cart_cache_size` followed by `init_cart_cache`: record the capacity,
set the unoccupied count to the capacity, and `malloc` the entry array (whose
contents are indeterminate, modelled by the arbitrary `junk` function). -/
def init_cart_cache (max_frames : Nat) (junk : Nat → cachedFrame) : CacheState :=
  { myCache := junk, myMaxFrames := max_frames, numberOfUnoccupiedFrames := max_frames }

/-- The descending index sequence `myMaxFrames - 1, …, lo` of the C loops
`for (i = myMaxFrames - 1; i >= lo; i--)`. -/
def downIdx (lo : Nat) : Nat → List Nat
  | 0 => []
  | k + 1 => (lo + k) :: downIdx lo k

/-- The indices scanned by the cache loops: all occupied indices, from
`myMaxFrames - 1` down to `numberOfUnoccupiedFrames`. -/
def occupiedIdxDesc (s : CacheState) : List Nat :=
  downIdx s.numberOfUnoccupiedFrames (s.myMaxFrames - s.numberOfUnoccupiedFrames)

/-- `adjust_priority` of `cart_cache.c`: every occupied entry other than
`exempt` whose priority is `< abovePriority` is aged by one step (the loop
runs over indices `myMaxFrames - 1` down to `numberOfUnoccupiedFrames`; each
iteration touches only its own index, so the pointwise description below is
exact). -/
def adjust_priority (s : CacheState) (exempt : Nat) (abovePriority : Int) : CacheState :=
  { s with myCache := fun i =>
      if s.numberOfUnoccupiedFrames ≤ i ∧ i < s.myMaxFrames ∧ i ≠ exempt ∧
          (s.myCache i).priority < abovePriority
      then { s.myCache i with priority := (s.myCache i).priority + 1 }
      else s.myCache i }

/-- Update one entry of the cache array. -/
def setEntry (s : CacheState) (i : Nat) (e : cachedFrame) : CacheState :=
  { s with myCache := Function.update s.myCache i e }

/-- The key-search loop shared by `put_cart_cache` and `get_cart_cache`: scan
the occupied indices downwards for the first entry with
`frame == frm && cartridge == cart`. -/
def findKey (s : CacheState) (cart frm : Nat) : Option Nat :=
  (occupiedIdxDesc s).find? fun i =>
    (s.myCache i).frame == frm && (s.myCache i).cartridge == cart

/-- The eviction-victim loop of `put_cart_cache`: scan the occupied indices
downwards for the first entry with `priority == myMaxFrames`. -/
def findVictim (s : CacheState) : Option Nat :=
  (occupiedIdxDesc s).find? fun i => (s.myCache i).priority == (s.myMaxFrames : Int)

/-- The promotion step of `put_cart_cache`/`get_cart_cache`: save the entry's
previous priority in `prioritiesToAdjust`, set its priority to
`numberOfUnoccupiedFrames + 1`, then call `adjust_priority`. -/
def touchEntry (s : CacheState) (i : Nat) : CacheState :=
  let prioritiesToAdjust := (s.myCache i).priority
  let s1 := setEntry s i
    { s.myCache i with priority := (s.numberOfUnoccupiedFrames : Int) + 1 }
  adjust_priority s1 i prioritiesToAdjust

/-- `put_cart_cache` of `cart_cache.c`.  `none` models the `return -1`
"logic error" branch (eviction scan found no victim). -/
def put_cart_cache (s : CacheState) (cart frm : Nat) (buf : Buf) : Option CacheState :=
  match findKey s cart frm with
  | some i =>
      let s2 := touchEntry s i
      some (setEntry s2 i { s2.myCache i with cache := buf })
  | none =>
      if s.numberOfUnoccupiedFrames = 0 then
        match findVictim s with
        | some i =>
            let s2 := touchEntry s i
            some (setEntry s2 i
              { s2.myCache i with frame := frm, cartridge := cart, cache := buf })
        | none => none
      else
        let i := s.numberOfUnoccupiedFrames - 1
        some { setEntry s i
            { frame := frm, cartridge := cart, cache := buf,
              priority := (s.numberOfUnoccupiedFrames : Int) } with
          numberOfUnoccupiedFrames := s.numberOfUnoccupiedFrames - 1 }

/-- `get_cart_cache` of `cart_cache.c`: on a hit, promote the entry and return
a pointer to its payload; on a miss return `NULL` and leave the cache
untouched. -/
def get_cart_cache (s : CacheState) (cart frm : Nat) : Option Buf × CacheState :=
  match findKey s cart frm with
  | some i =>
      let s2 := touchEntry s i
      (some ((s2.myCache i).cache), s2)
  | none => (none, s)

/-- One cache operation of the public interface. -/
inductive CacheOp where
  | put (cart frm : Nat) (buf : Buf)
  | get (cart frm : Nat)

/-- Apply one cache operation to the state.  A failing `put` (`return -1`)
leaves the state as the C code does at that return: unchanged, since the
failing branch mutates nothing before returning. -/
def applyCacheOp (s : CacheState) : CacheOp → CacheState
  | CacheOp.put c f b => (put_cart_cache s c f b).getD s
  | CacheOp.get c f => (get_cart_cache s c f).2

/-- Run a sequence of cache operations. -/
def runCacheOps (s : CacheState) : List CacheOp → CacheState
  | [] => s
  | op :: ops => runCacheOps (applyCacheOp s op) ops

/-- The cache states reachable from `init_cart_cache` (for some capacity and
some indeterminate `malloc` contents) by `put`/`get` sequences. -/
def CacheReachable (s : CacheState) : Prop :=
  ∃ (max_frames : Nat) (junk : Nat → cachedFrame) (ops : List CacheOp),
    s = runCacheOps (init_cart_cache max_frames junk) ops

/-- Index `i` holds an occupied cache entry. -/
def occupied (s : CacheState) (i : Nat) : Prop :=
  s.numberOfUnoccupiedFrames ≤ i ∧ i < s.myMaxFrames

instance (s : CacheState) (i : Nat) : Decidable (occupied s i) := by
  unfold occupied; infer_instance

/-- The cache invariant maintained by `put_cart_cache`/`get_cart_cache`:
the unoccupied count is bounded by the capacity; the priorities of the
occupied entries are exactly the integers
`numberOfUnoccupiedFrames + 1, …, myMaxFrames`, each occurring once
(bounds, injectivity, surjectivity); and occupied entries have pairwise
distinct `(cartridge, frame)` keys. -/
def cacheInv (s : CacheState) : Prop :=
  s.numberOfUnoccupiedFrames ≤ s.myMaxFrames ∧
  (∀ i, occupied s i →
    (s.numberOfUnoccupiedFrames : Int) + 1 ≤ (s.myCache i).priority ∧
    (s.myCache i).priority ≤ (s.myMaxFrames : Int)) ∧
  (∀ i j, occupied s i → occupied s j →
    (s.myCache i).priority = (s.myCache j).priority → i = j) ∧
  (∀ p : Int, (s.numberOfUnoccupiedFrames : Int) + 1 ≤ p → p ≤ (s.myMaxFrames : Int) →
    ∃ i, occupied s i ∧ (s.myCache i).priority = p) ∧
  (∀ i j, occupied s i → occupied s j →
    (s.myCache i).frame = (s.myCache j).frame →
    (s.myCache i).cartridge = (s.myCache j).cartridge → i = j)

/-! ### Cache lemmas -/

theorem mem_downIdx (lo k i : Nat) : i ∈ downIdx lo k ↔ lo ≤ i ∧ i < lo + k := by
  induction k with
  | zero => simp [downIdx]
  | succ k ih => simp [downIdx, ih]; omega

theorem mem_occupiedIdxDesc (s : CacheState) (i : Nat) :
    i ∈ occupiedIdxDesc s ↔ occupied s i := by
  unfold occupiedIdxDesc occupied
  rw [mem_downIdx]
  omega

theorem findKey_some {s : CacheState} {c f i : Nat} (h : findKey s c f = some i) :
    occupied s i ∧ (s.myCache i).frame = f ∧ (s.myCache i).cartridge = c := by
  have hm := List.mem_of_find?_eq_some h
  have hp := List.find?_some h
  rw [mem_occupiedIdxDesc] at hm
  simp only [Bool.and_eq_true, beq_iff_eq] at hp
  exact ⟨hm, hp.1, hp.2⟩

theorem findKey_none {s : CacheState} {c f : Nat} (h : findKey s c f = none) :
    ∀ i, occupied s i →
      ¬((s.myCache i).frame = f ∧ (s.myCache i).cartridge = c) := by
  intro i hi hcon
  rw [findKey, List.find?_eq_none] at h
  have := h i ((mem_occupiedIdxDesc s i).2 hi)
  simp only [Bool.and_eq_true, beq_iff_eq, not_and] at this
  exact this hcon.1 hcon.2

theorem findKey_isSome_of {s : CacheState} {c f t : Nat} (ht : occupied s t)
    (hf : (s.myCache t).frame = f) (hc : (s.myCache t).cartridge = c) :
    ∃ i, findKey s c f = some i := by
  have hs : (findKey s c f).isSome := by
    rw [findKey, List.find?_isSome]
    exact ⟨t, (mem_occupiedIdxDesc s t).2 ht, by simp [hf, hc]⟩
  exact Option.isSome_iff_exists.mp hs

theorem findVictim_some {s : CacheState} {i : Nat} (h : findVictim s = some i) :
    occupied s i ∧ (s.myCache i).priority = (s.myMaxFrames : Int) := by
  have hm := List.mem_of_find?_eq_some h
  have hp := List.find?_some h
  rw [mem_occupiedIdxDesc] at hm
  simp only [beq_iff_eq] at hp
  exact ⟨hm, hp⟩

theorem findVictim_isSome_of {s : CacheState} {t : Nat} (ht : occupied s t)
    (hp : (s.myCache t).priority = (s.myMaxFrames : Int)) :
    ∃ i, findVictim s = some i := by
  have hs : (findVictim s).isSome := by
    rw [findVictim, List.find?_isSome]
    exact ⟨t, (mem_occupiedIdxDesc s t).2 ht, by simp [hp]⟩
  exact Option.isSome_iff_exists.mp hs

theorem touchEntry_myMaxFrames (s : CacheState) (t : Nat) :
    (touchEntry s t).myMaxFrames = s.myMaxFrames := rfl

theorem touchEntry_unoccupied (s : CacheState) (t : Nat) :
    (touchEntry s t).numberOfUnoccupiedFrames = s.numberOfUnoccupiedFrames := rfl

theorem touchEntry_occupied (s : CacheState) (t i : Nat) :
    occupied (touchEntry s t) i ↔ occupied s i := Iff.rfl

theorem touchEntry_priority (s : CacheState) (t i : Nat) :
    ((touchEntry s t).myCache i).priority =
      if i = t then (s.numberOfUnoccupiedFrames : Int) + 1
      else if occupied s i ∧ (s.myCache i).priority < (s.myCache t).priority
        then (s.myCache i).priority + 1 else (s.myCache i).priority := by
  unfold touchEntry adjust_priority setEntry occupied
  by_cases hit : i = t
  · subst hit
    simp [Function.update_same]
  · simp only [Function.update_noteq hit, hit, if_false]
    by_cases hcond : s.numberOfUnoccupiedFrames ≤ i ∧ i < s.myMaxFrames ∧
        (s.myCache i).priority < (s.myCache t).priority
    · rw [if_pos ⟨hcond.1, hcond.2.1, hit, hcond.2.2⟩,
        if_pos ⟨⟨hcond.1, hcond.2.1⟩, hcond.2.2⟩]
    · rw [if_neg, if_neg]
      · intro hcon
        exact hcond ⟨hcon.1.1, hcon.1.2, hcon.2⟩
      · intro hcon
        exact hcond ⟨hcon.1, hcon.2.1, hcon.2.2.2⟩

theorem touchEntry_fields (s : CacheState) (t i : Nat) :
    ((touchEntry s t).myCache i).frame = (s.myCache i).frame ∧
    ((touchEntry s t).myCache i).cartridge = (s.myCache i).cartridge ∧
    ((touchEntry s t).myCache i).cache = (s.myCache i).cache := by
  unfold touchEntry adjust_priority setEntry
  by_cases hit : i = t
  · subst hit
    simp [Function.update_same]
  · simp only [Function.update_noteq hit]
    split <;> simp

theorem touchEntry_inv {s : CacheState} {t : Nat} (h : cacheInv s) (ht : occupied s t) :
    cacheInv (touchEntry s t) := by
  obtain ⟨hu, hrange, hinj, hsurj, hkeys⟩ := h
  have hp0 := hrange t ht
  refine ⟨by rw [touchEntry_unoccupied, touchEntry_myMaxFrames]; exact hu, ?_, ?_, ?_, ?_⟩
  · intro i hi
    rw [touchEntry_occupied] at hi
    rw [touchEntry_priority, touchEntry_unoccupied, touchEntry_myMaxFrames]
    by_cases hit : i = t
    · rw [if_pos hit]
      have h1 := ht.1
      have h2 := ht.2
      omega
    · rw [if_neg hit]
      have hr := hrange i hi
      by_cases hc : occupied s i ∧ (s.myCache i).priority < (s.myCache t).priority
      · rw [if_pos hc]
        omega
      · rw [if_neg hc]
        omega
  · intro i j hi hj hpr
    rw [touchEntry_occupied] at hi hj
    rw [touchEntry_priority, touchEntry_priority] at hpr
    have hri := hrange i hi
    have hrj := hrange j hj
    by_cases hit : i = t <;> by_cases hjt : j = t
    · omega
    · rw [if_pos hit, if_neg hjt] at hpr
      exfalso
      by_cases hc : occupied s j ∧ (s.myCache j).priority < (s.myCache t).priority
      · rw [if_pos hc] at hpr
        omega
      · rw [if_neg hc] at hpr
        have hge : ¬((s.myCache j).priority < (s.myCache t).priority) :=
          fun hlt => hc ⟨hj, hlt⟩
        have : (s.myCache j).priority = (s.myCache t).priority := by omega
        exact hjt (hinj j t hj ht this)
    · rw [if_neg hit, if_pos hjt] at hpr
      exfalso
      by_cases hc : occupied s i ∧ (s.myCache i).priority < (s.myCache t).priority
      · rw [if_pos hc] at hpr
        omega
      · rw [if_neg hc] at hpr
        have hge : ¬((s.myCache i).priority < (s.myCache t).priority) :=
          fun hlt => hc ⟨hi, hlt⟩
        have : (s.myCache i).priority = (s.myCache t).priority := by omega
        exact hit (hinj i t hi ht this)
    · rw [if_neg hit, if_neg hjt] at hpr
      by_cases hci : occupied s i ∧ (s.myCache i).priority < (s.myCache t).priority <;>
        by_cases hcj : occupied s j ∧ (s.myCache j).priority < (s.myCache t).priority
      · rw [if_pos hci, if_pos hcj] at hpr
        exact hinj i j hi hj (by omega)
      · rw [if_pos hci, if_neg hcj] at hpr
        simp only [not_and, not_lt] at hcj
        have hcj' := hcj hj
        have : (s.myCache j).priority = (s.myCache t).priority := by omega
        exact absurd (hinj j t hj ht this) hjt
      · rw [if_neg hci, if_pos hcj] at hpr
        simp only [not_and, not_lt] at hci
        have hci' := hci hi
        have : (s.myCache i).priority = (s.myCache t).priority := by omega
        exact absurd (hinj i t hi ht this) hit
      · rw [if_neg hci, if_neg hcj] at hpr
        exact hinj i j hi hj hpr
  · intro p hp1 hp2
    rw [touchEntry_unoccupied] at hp1
    rw [touchEntry_myMaxFrames] at hp2
    by_cases hpt : p = (s.numberOfUnoccupiedFrames : Int) + 1
    · refine ⟨t, (touchEntry_occupied s t t).2 ht, ?_⟩
      rw [touchEntry_priority, if_pos rfl, hpt]
    · by_cases hple : p ≤ (s.myCache t).priority
      · obtain ⟨i, hi, hpi⟩ := hsurj (p - 1) (by omega) (by omega)
        have hit : i ≠ t := by
          intro hco
          rw [hco] at hpi
          omega
        refine ⟨i, (touchEntry_occupied s t i).2 hi, ?_⟩
        rw [touchEntry_priority, if_neg hit, if_pos ⟨hi, by omega⟩]
        omega
      · obtain ⟨i, hi, hpi⟩ := hsurj p hp1 hp2
        have hit : i ≠ t := by
          intro hco
          rw [hco] at hpi
          omega
        refine ⟨i, (touchEntry_occupied s t i).2 hi, ?_⟩
        rw [touchEntry_priority, if_neg hit, if_neg]
        · exact hpi
        · intro hco
          omega
  · intro i j hi hj hfr hct
    rw [touchEntry_occupied] at hi hj
    rw [(touchEntry_fields s t i).1, (touchEntry_fields s t j).1] at hfr
    rw [(touchEntry_fields s t i).2.1, (touchEntry_fields s t j).2.1] at hct
    exact hkeys i j hi hj hfr hct

theorem setEntry_myCache_same (s : CacheState) (i : Nat) (e : cachedFrame) :
    ((setEntry s i e).myCache i) = e := by
  unfold setEntry
  simp [Function.update_same]

theorem setEntry_myCache_ne (s : CacheState) (i : Nat) (e : cachedFrame) {j : Nat}
    (h : j ≠ i) : ((setEntry s i e).myCache j) = s.myCache j := by
  unfold setEntry
  simp [Function.update_noteq h]

theorem setEntry_counters (s : CacheState) (i : Nat) (e : cachedFrame) :
    (setEntry s i e).myMaxFrames = s.myMaxFrames ∧
    (setEntry s i e).numberOfUnoccupiedFrames = s.numberOfUnoccupiedFrames :=
  ⟨rfl, rfl⟩

theorem setEntry_occupied (s : CacheState) (i : Nat) (e : cachedFrame) (j : Nat) :
    occupied (setEntry s i e) j ↔ occupied s j := Iff.rfl

/-- If only payloads changed (counters, priorities and keys intact), the
invariant carries over. -/
theorem cacheInv_congr {s s' : CacheState}
    (hN : s'.myMaxFrames = s.myMaxFrames)
    (hu : s'.numberOfUnoccupiedFrames = s.numberOfUnoccupiedFrames)
    (hpr : ∀ i, (s'.myCache i).priority = (s.myCache i).priority)
    (hfr : ∀ i, (s'.myCache i).frame = (s.myCache i).frame)
    (hct : ∀ i, (s'.myCache i).cartridge = (s.myCache i).cartridge)
    (h : cacheInv s) : cacheInv s' := by
  obtain ⟨h1, h2, h3, h4, h5⟩ := h
  have hocc : ∀ j, occupied s' j ↔ occupied s j := by
    intro j
    unfold occupied
    rw [hN, hu]
  refine ⟨by rw [hN, hu]; exact h1, ?_, ?_, ?_, ?_⟩
  · intro i hi
    rw [hpr, hu, hN]
    exact h2 i ((hocc i).1 hi)
  · intro i j hi hj hp
    rw [hpr, hpr] at hp
    exact h3 i j ((hocc i).1 hi) ((hocc j).1 hj) hp
  · intro p hp1 hp2
    rw [hu] at hp1
    rw [hN] at hp2
    obtain ⟨i, hi, hip⟩ := h4 p hp1 hp2
    exact ⟨i, (hocc i).2 hi, by rw [hpr]; exact hip⟩
  · intro i j hi hj hf hc
    rw [hfr, hfr] at hf
    rw [hct, hct] at hc
    exact h5 i j ((hocc i).1 hi) ((hocc j).1 hj) hf hc

/-- The hit path of `put_cart_cache`. -/
theorem put_hit_eq {s : CacheState} {c f : Nat} {b : Buf} {i : Nat}
    (h : findKey s c f = some i) :
    put_cart_cache s c f b =
      some (setEntry (touchEntry s i) i
        { (touchEntry s i).myCache i with cache := b }) := by
  unfold put_cart_cache
  rw [h]

/-- The eviction path of `put_cart_cache`. -/
theorem put_evict_eq {s : CacheState} {c f : Nat} {b : Buf} {i : Nat}
    (hk : findKey s c f = none) (hu : s.numberOfUnoccupiedFrames = 0)
    (hv : findVictim s = some i) :
    put_cart_cache s c f b =
      some (setEntry (touchEntry s i) i
        { (touchEntry s i).myCache i with frame := f, cartridge := c, cache := b }) := by
  unfold put_cart_cache
  rw [hk, if_pos hu, hv]

/-- The fresh-slot path of `put_cart_cache`. -/
theorem put_fresh_eq {s : CacheState} {c f : Nat} {b : Buf}
    (hk : findKey s c f = none) (hu : s.numberOfUnoccupiedFrames ≠ 0) :
    put_cart_cache s c f b =
      some { setEntry s (s.numberOfUnoccupiedFrames - 1)
          { frame := f, cartridge := c, cache := b,
            priority := (s.numberOfUnoccupiedFrames : Int) } with
        numberOfUnoccupiedFrames := s.numberOfUnoccupiedFrames - 1 } := by
  unfold put_cart_cache
  rw [hk, if_neg hu]

/-- The failing path of `put_cart_cache` (the C `return -1`). -/
theorem put_none_iff {s : CacheState} {c f : Nat} {b : Buf} :
    put_cart_cache s c f b = none ↔
      findKey s c f = none ∧ s.numberOfUnoccupiedFrames = 0 ∧ findVictim s = none := by
  unfold put_cart_cache
  constructor
  · intro h
    cases hk : findKey s c f with
    | some i => rw [hk] at h; simp at h
    | none =>
      rw [hk] at h
      by_cases hu : s.numberOfUnoccupiedFrames = 0
      · rw [if_pos hu] at h
        cases hv : findVictim s with
        | some i => rw [hv] at h; simp at h
        | none => exact ⟨rfl, hu, rfl⟩
      · rw [if_neg hu] at h
        simp at h
  · intro ⟨hk, hu, hv⟩
    rw [hk, if_pos hu, hv]

/-- Invariant preservation for the three successful `put_cart_cache` paths. -/
theorem put_some_inv {s s' : CacheState} {c f : Nat} {b : Buf}
    (h : cacheInv s) (hp : put_cart_cache s c f b = some s') : cacheInv s' := by
  cases hk : findKey s c f with
  | some i =>
    rw [put_hit_eq hk] at hp
    obtain ⟨hocc, -, -⟩ := findKey_some hk
    have htv := touchEntry_inv h hocc
    injection hp with hp
    refine cacheInv_congr ?_ ?_ ?_ ?_ ?_ htv
    · rw [← hp]
      rfl
    · rw [← hp]
      rfl
    · intro j
      rw [← hp]
      by_cases hji : j = i
      · subst hji
        rw [setEntry_myCache_same]
      · rw [setEntry_myCache_ne _ _ _ hji]
    · intro j
      rw [← hp]
      by_cases hji : j = i
      · subst hji
        rw [setEntry_myCache_same]
      · rw [setEntry_myCache_ne _ _ _ hji]
    · intro j
      rw [← hp]
      by_cases hji : j = i
      · subst hji
        rw [setEntry_myCache_same]
      · rw [setEntry_myCache_ne _ _ _ hji]
  | none =>
    by_cases hu : s.numberOfUnoccupiedFrames = 0
    · cases hv : findVictim s with
      | none =>
        rw [put_none_iff.2 ⟨hk, hu, hv⟩] at hp
        cases hp
      | some i =>
        rw [put_evict_eq hk hu hv] at hp
        obtain ⟨hocc, -⟩ := findVictim_some hv
        have htv := touchEntry_inv h hocc
        injection hp with hp
        have hM : s'.myMaxFrames = s.myMaxFrames := by rw [← hp]; try rfl
        have hU : s'.numberOfUnoccupiedFrames = s.numberOfUnoccupiedFrames := by
          rw [← hp]
          try rfl
        have hCt : s'.myCache i =
            { (touchEntry s i).myCache i with frame := f, cartridge := c, cache := b } := by
          rw [← hp]
          exact setEntry_myCache_same _ _ _
        have hCj : ∀ j, j ≠ i → s'.myCache j = (touchEntry s i).myCache j := by
          intro j hj
          rw [← hp]
          exact setEntry_myCache_ne _ _ _ hj
        have hoccIff : ∀ j, occupied s' j ↔ occupied s j := by
          intro j
          unfold occupied
          rw [hM, hU]
        obtain ⟨ht1, ht2, ht3, ht4, ht5⟩ := htv
        have hPr : ∀ j, (s'.myCache j).priority = ((touchEntry s i).myCache j).priority := by
          intro j
          by_cases hji : j = i
          · subst hji
            rw [hCt]
          · rw [hCj j hji]
        refine ⟨?_, ?_, ?_, ?_, ?_⟩
        · rw [hM, hU]
          exact h.1
        · intro j hj
          rw [hPr, hM, hU]
          exact ht2 j ((hoccIff j).1 hj)
        · intro j k hj hk' hpr
          rw [hPr, hPr] at hpr
          exact ht3 j k ((hoccIff j).1 hj) ((hoccIff k).1 hk') hpr
        · intro p hp1 hp2
          rw [hU] at hp1
          rw [hM] at hp2
          obtain ⟨j, hj, hjp⟩ := ht4 p hp1 hp2
          exact ⟨j, (hoccIff j).2 hj, by rw [hPr]; exact hjp⟩
        · intro j k hj hk' hfr hct
          rw [hoccIff] at hj hk'
          by_cases hji : j = i <;> by_cases hki : k = i
          · rw [hji, hki]
          · exfalso
            rw [hji, hCt, hCj k hki] at hfr hct
            have hkf := (touchEntry_fields s i k).1
            have hkc := (touchEntry_fields s i k).2.1
            simp only [cachedFrame.frame] at hfr
            simp only [cachedFrame.cartridge] at hct
            rw [hkf] at hfr
            rw [hkc] at hct
            exact findKey_none hk k hk' ⟨hfr.symm, hct.symm⟩
          · exfalso
            rw [hki, hCt, hCj j hji] at hfr hct
            have hjf := (touchEntry_fields s i j).1
            have hjc := (touchEntry_fields s i j).2.1
            simp only [cachedFrame.frame] at hfr
            simp only [cachedFrame.cartridge] at hct
            rw [hjf] at hfr
            rw [hjc] at hct
            exact findKey_none hk j hj ⟨hfr, hct⟩
          · rw [hCj j hji, hCj k hki] at hfr hct
            rw [(touchEntry_fields s i j).1, (touchEntry_fields s i k).1] at hfr
            rw [(touchEntry_fields s i j).2.1, (touchEntry_fields s i k).2.1] at hct
            exact h.2.2.2.2 j k hj hk' hfr hct
    · rw [put_fresh_eq hk hu] at hp
      injection hp with hp
      obtain ⟨h1, h2, h3, h4, h5⟩ := h
      have hu1 : 1 ≤ s.numberOfUnoccupiedFrames := Nat.one_le_iff_ne_zero.2 hu
      have hM : s'.myMaxFrames = s.myMaxFrames := by rw [← hp]; try rfl
      have hU : s'.numberOfUnoccupiedFrames = s.numberOfUnoccupiedFrames - 1 := by
        rw [← hp]
        try rfl
      have hCt : s'.myCache (s.numberOfUnoccupiedFrames - 1) =
          { frame := f, cartridge := c, cache := b,
            priority := (s.numberOfUnoccupiedFrames : Int) } := by
        rw [← hp]
        exact setEntry_myCache_same _ _ _
      have hCj : ∀ j, j ≠ s.numberOfUnoccupiedFrames - 1 → s'.myCache j = s.myCache j := by
        intro j hj
        rw [← hp]
        exact setEntry_myCache_ne _ _ _ hj
      have hoccIff : ∀ j, occupied s' j ↔
          (s.numberOfUnoccupiedFrames - 1 ≤ j ∧ j < s.myMaxFrames) := by
        intro j
        unfold occupied
        rw [hM, hU]
      refine ⟨?_, ?_, ?_, ?_, ?_⟩
      · rw [hM, hU]
        omega
      · intro j hj
        rw [hoccIff] at hj
        rw [hM, hU]
        by_cases hji : j = s.numberOfUnoccupiedFrames - 1
        · subst hji
          rw [hCt]
          show ((s.numberOfUnoccupiedFrames - 1 : Nat) : Int) + 1 ≤
              (s.numberOfUnoccupiedFrames : Int) ∧
            (s.numberOfUnoccupiedFrames : Int) ≤ (s.myMaxFrames : Int)
          omega
        · rw [hCj j hji]
          have hjo : occupied s j := ⟨by omega, hj.2⟩
          have := h2 j hjo
          omega
      · intro j k hj hk' hpr
        rw [hoccIff] at hj hk'
        by_cases hji : j = s.numberOfUnoccupiedFrames - 1 <;>
          by_cases hki : k = s.numberOfUnoccupiedFrames - 1
        · rw [hji, hki]
        · exfalso
          subst hji
          rw [hCt, hCj k hki] at hpr
          have hko : occupied s k := ⟨by omega, hk'.2⟩
          have := h2 k hko
          simp only [cachedFrame.priority] at hpr
          omega
        · exfalso
          subst hki
          rw [hCt, hCj j hji] at hpr
          have hjo : occupied s j := ⟨by omega, hj.2⟩
          have := h2 j hjo
          simp only [cachedFrame.priority] at hpr
          omega
        · rw [hCj j hji, hCj k hki] at hpr
          exact h3 j k ⟨by omega, hj.2⟩ ⟨by omega, hk'.2⟩ hpr
      · intro p hp1 hp2
        rw [hU] at hp1
        rw [hM] at hp2
        by_cases hpu : p = (s.numberOfUnoccupiedFrames : Int)
        · refine ⟨s.numberOfUnoccupiedFrames - 1, ?_, ?_⟩
          · rw [hoccIff]
            omega
          · rw [hCt, hpu]
        · have hp1' : (s.numberOfUnoccupiedFrames : Int) + 1 ≤ p := by omega
          obtain ⟨j, hj, hjp⟩ := h4 p hp1' hp2
          obtain ⟨hj1, hj2⟩ := hj
          have hji : j ≠ s.numberOfUnoccupiedFrames - 1 := by omega
          refine ⟨j, ?_, ?_⟩
          · rw [hoccIff]
            exact ⟨by omega, hj2⟩
          · rw [hCj j hji]
            exact hjp
      · intro j k hj hk' hfr hct
        rw [hoccIff] at hj hk'
        by_cases hji : j = s.numberOfUnoccupiedFrames - 1 <;>
          by_cases hki : k = s.numberOfUnoccupiedFrames - 1
        · rw [hji, hki]
        · exfalso
          subst hji
          rw [hCt, hCj k hki] at hfr hct
          simp only [cachedFrame.frame] at hfr
          simp only [cachedFrame.cartridge] at hct
          exact findKey_none hk k ⟨by omega, hk'.2⟩ ⟨hfr.symm, hct.symm⟩
        · exfalso
          subst hki
          rw [hCt, hCj j hji] at hfr hct
          simp only [cachedFrame.frame] at hfr
          simp only [cachedFrame.cartridge] at hct
          exact findKey_none hk j ⟨by omega, hj.2⟩ ⟨hfr, hct⟩
        · rw [hCj j hji, hCj k hki] at hfr hct
          exact h5 j k ⟨by omega, hj.2⟩ ⟨by omega, hk'.2⟩ hfr hct

/-- After a successful `put_cart_cache`, some occupied entry holds the key
`(cart, frm)` and the freshly written payload, with priority
`numberOfUnoccupiedFrames + 1` (the minimum among occupied entries). -/
theorem put_touched {s s' : CacheState} {c f : Nat} {b : Buf}
    (h : cacheInv s) (hp : put_cart_cache s c f b = some s') :
    s'.myMaxFrames = s.myMaxFrames ∧
    ∃ t, occupied s' t ∧ (s'.myCache t).frame = f ∧ (s'.myCache t).cartridge = c ∧
      (s'.myCache t).priority = (s'.numberOfUnoccupiedFrames : Int) + 1 ∧
      (s'.myCache t).cache = b := by
  cases hk : findKey s c f with
  | some i =>
    rw [put_hit_eq hk] at hp
    obtain ⟨hocc, hif, hic⟩ := findKey_some hk
    injection hp with hp
    have hM : s'.myMaxFrames = s.myMaxFrames := by rw [← hp]; try rfl
    have hU : s'.numberOfUnoccupiedFrames = s.numberOfUnoccupiedFrames := by
      rw [← hp]
      try rfl
    have hCt : s'.myCache i = { (touchEntry s i).myCache i with cache := b } := by
      rw [← hp]
      exact setEntry_myCache_same _ _ _
    refine ⟨hM, i, ?_, ?_, ?_, ?_, ?_⟩
    · show s'.numberOfUnoccupiedFrames ≤ i ∧ i < s'.myMaxFrames
      rw [hM, hU]
      exact hocc
    · rw [hCt]
      show ((touchEntry s i).myCache i).frame = f
      rw [(touchEntry_fields s i i).1]
      exact hif
    · rw [hCt]
      show ((touchEntry s i).myCache i).cartridge = c
      rw [(touchEntry_fields s i i).2.1]
      exact hic
    · rw [hCt]
      show ((touchEntry s i).myCache i).priority = (s'.numberOfUnoccupiedFrames : Int) + 1
      rw [touchEntry_priority, if_pos rfl, hU]
    · rw [hCt]
  | none =>
    by_cases hu : s.numberOfUnoccupiedFrames = 0
    · cases hv : findVictim s with
      | none =>
        rw [put_none_iff.2 ⟨hk, hu, hv⟩] at hp
        cases hp
      | some i =>
        rw [put_evict_eq hk hu hv] at hp
        obtain ⟨hocc, -⟩ := findVictim_some hv
        injection hp with hp
        have hM : s'.myMaxFrames = s.myMaxFrames := by rw [← hp]; try rfl
        have hU : s'.numberOfUnoccupiedFrames = s.numberOfUnoccupiedFrames := by
          rw [← hp]
          try rfl
        have hCt : s'.myCache i =
            { (touchEntry s i).myCache i with frame := f, cartridge := c, cache := b } := by
          rw [← hp]
          exact setEntry_myCache_same _ _ _
        refine ⟨hM, i, ?_, ?_, ?_, ?_, ?_⟩
        · show s'.numberOfUnoccupiedFrames ≤ i ∧ i < s'.myMaxFrames
          rw [hM, hU]
          exact hocc
        · rw [hCt]
        · rw [hCt]
        · rw [hCt]
          show ((touchEntry s i).myCache i).priority = (s'.numberOfUnoccupiedFrames : Int) + 1
          rw [touchEntry_priority, if_pos rfl, hU]
        · rw [hCt]
    · rw [put_fresh_eq hk hu] at hp
      injection hp with hp
      have hu1 : 1 ≤ s.numberOfUnoccupiedFrames := Nat.one_le_iff_ne_zero.2 hu
      have hM : s'.myMaxFrames = s.myMaxFrames := by rw [← hp]; try rfl
      have hU : s'.numberOfUnoccupiedFrames = s.numberOfUnoccupiedFrames - 1 := by
        rw [← hp]
        try rfl
      have hCt : s'.myCache (s.numberOfUnoccupiedFrames - 1) =
          { frame := f, cartridge := c, cache := b,
            priority := (s.numberOfUnoccupiedFrames : Int) } := by
        rw [← hp]
        exact setEntry_myCache_same _ _ _
      refine ⟨hM, s.numberOfUnoccupiedFrames - 1, ?_, ?_, ?_, ?_, ?_⟩
      · show s'.numberOfUnoccupiedFrames ≤ s.numberOfUnoccupiedFrames - 1 ∧
          s.numberOfUnoccupiedFrames - 1 < s'.myMaxFrames
        rw [hM, hU]
        have := h.1
        omega
      · rw [hCt]
      · rw [hCt]
      · rw [hCt, hU]
        show (s.numberOfUnoccupiedFrames : Int) =
          ((s.numberOfUnoccupiedFrames - 1 : Nat) : Int) + 1
        omega
      · rw [hCt]

/-- Given the invariant and a positive capacity, `put_cart_cache` always
succeeds: the `-1` branch would require the full-cache eviction scan to miss,
but surjectivity of the priorities provides a victim with priority
`myMaxFrames`. -/
theorem put_isSome {s : CacheState} {c f : Nat} {b : Buf}
    (h : cacheInv s) (hN : 1 ≤ s.myMaxFrames) : (put_cart_cache s c f b).isSome := by
  cases hp : put_cart_cache s c f b with
  | some s1 => rfl
  | none =>
    exfalso
    obtain ⟨hk, hu, hv⟩ := put_none_iff.1 hp
    obtain ⟨i, hi, hip⟩ := h.2.2.2.1 (s.myMaxFrames : Int) (by rw [hu]; omega) (by omega)
    obtain ⟨j, hj⟩ := findVictim_isSome_of hi hip
    rw [hv] at hj
    cases hj

/-- The hit path of `get_cart_cache`. -/
theorem get_hit_eq {s : CacheState} {c f : Nat} {i : Nat} (h : findKey s c f = some i) :
    get_cart_cache s c f =
      (some (((touchEntry s i).myCache i).cache), touchEntry s i) := by
  unfold get_cart_cache
  rw [h]

/-- The miss path of `get_cart_cache`. -/
theorem get_miss_eq {s : CacheState} {c f : Nat} (h : findKey s c f = none) :
    get_cart_cache s c f = (none, s) := by
  unfold get_cart_cache
  rw [h]

/-- `get_cart_cache` preserves the invariant. -/
theorem get_inv {s : CacheState} {c f : Nat} (h : cacheInv s) :
    cacheInv (get_cart_cache s c f).2 := by
  cases hk : findKey s c f with
  | some i =>
    rw [get_hit_eq hk]
    exact touchEntry_inv h (findKey_some hk).1
  | none =>
    rw [get_miss_eq hk]
    exact h

/-- A `get_cart_cache` hit returns the entry with the looked-up key, promoted
to the minimum priority. -/
theorem get_touched {s s' : CacheState} {c f : Nat} {d : Buf}
    (hg : get_cart_cache s c f = (some d, s')) :
    s'.myMaxFrames = s.myMaxFrames ∧
    ∃ t, occupied s' t ∧ (s'.myCache t).frame = f ∧ (s'.myCache t).cartridge = c ∧
      (s'.myCache t).priority = (s'.numberOfUnoccupiedFrames : Int) + 1 ∧
      (s'.myCache t).cache = d := by
  cases hk : findKey s c f with
  | none =>
    rw [get_miss_eq hk] at hg
    cases hg
  | some i =>
    rw [get_hit_eq hk] at hg
    obtain ⟨hocc, hif, hic⟩ := findKey_some hk
    injection hg with hg1 hg2
    injection hg1 with hg1
    subst hg2
    refine ⟨rfl, i, ?_, ?_, ?_, ?_, ?_⟩
    · exact (touchEntry_occupied s i i).2 hocc
    · rw [(touchEntry_fields s i i).1]
      exact hif
    · rw [(touchEntry_fields s i i).2.1]
      exact hic
    · rw [touchEntry_priority, if_pos rfl]
      rfl
    · rw [hg1]

/-- If the (unique, by the invariant) occupied entry with key `(c, f)` holds
payload `b`, then `get_cart_cache` hits and returns `b`. -/
theorem get_data_of_key {s : CacheState} {c f t : Nat} {b : Buf}
    (h : cacheInv s) (ht : occupied s t) (hf : (s.myCache t).frame = f)
    (hc : (s.myCache t).cartridge = c) (hb : (s.myCache t).cache = b) :
    (get_cart_cache s c f).1 = some b := by
  obtain ⟨i, hi⟩ := findKey_isSome_of ht hf hc
  obtain ⟨hiocc, hif, hic⟩ := findKey_some hi
  have hit : i = t := h.2.2.2.2 i t hiocc ht (by rw [hif, hf]) (by rw [hic, hc])
  rw [get_hit_eq hi]
  show some (((touchEntry s i).myCache i).cache) = some b
  rw [(touchEntry_fields s i i).2.2, hit, hb]

/-- On a miss, `get_cart_cache` returns `NULL` and the untouched state. -/
theorem get_miss_of_no_key {s : CacheState} {c f : Nat}
    (h : ∀ i, occupied s i →
      ¬((s.myCache i).frame = f ∧ (s.myCache i).cartridge = c)) :
    get_cart_cache s c f = (none, s) := by
  apply get_miss_eq
  cases hk : findKey s c f with
  | none => rfl
  | some i =>
    exfalso
    obtain ⟨hocc, hif, hic⟩ := findKey_some hk
    exact h i hocc ⟨hif, hic⟩

/-- The invariant holds right after `init_cart_cache` (no occupied entries). -/
theorem init_cart_cache_inv (max_frames : Nat) (junk : Nat → cachedFrame) :
    cacheInv (init_cart_cache max_frames junk) := by
  have hocc : ∀ i, ¬ occupied (init_cart_cache max_frames junk) i := by
    intro i hi
    have h1 : max_frames ≤ i := hi.1
    have h2 : i < max_frames := hi.2
    omega
  refine ⟨le_refl _, ?_, ?_, ?_, ?_⟩
  · intro i hi
    exact absurd hi (hocc i)
  · intro i j hi _ _
    exact absurd hi (hocc i)
  · intro p hp1 hp2
    exfalso
    have h1 : (max_frames : Int) + 1 ≤ p := hp1
    have h2 : p ≤ (max_frames : Int) := hp2
    omega
  · intro i j hi _ _ _
    exact absurd hi (hocc i)

/-- Every cache operation preserves the invariant. -/
theorem applyCacheOp_inv {s : CacheState} (h : cacheInv s) (op : CacheOp) :
    cacheInv (applyCacheOp s op) := by
  cases op with
  | put c f b =>
    show cacheInv ((put_cart_cache s c f b).getD s)
    cases hp : put_cart_cache s c f b with
    | some s1 => exact put_some_inv h hp
    | none => exact h
  | get c f => exact get_inv h

/-- Running any operation sequence preserves the invariant. -/
theorem runCacheOps_inv {s : CacheState} (h : cacheInv s) (ops : List CacheOp) :
    cacheInv (runCacheOps s ops) := by
  induction ops generalizing s with
  | nil => exact h
  | cons op ops ih => exact ih (applyCacheOp_inv h op)

/-- Every reachable cache state satisfies the invariant. -/
theorem reachable_inv {s : CacheState} (h : CacheReachable s) : cacheInv s := by
  obtain ⟨N, junk, ops, rfl⟩ := h
  exact runCacheOps_inv (init_cart_cache_inv N junk) ops

/-! ### Cache claims (C1, C4, C10) -/

/-- The multiset of priorities of the occupied cache entries. -/
def prioMultiset (s : CacheState) : Multiset Int :=
  (Finset.Ico s.numberOfUnoccupiedFrames s.myMaxFrames).val.map fun i =>
    (s.myCache i).priority

/-- C1 (corrected).  After `init_cart_cache` and any sequence of
`put_cart_cache`/`get_cart_cache` operations, the multiset of priorities
among the occupied entries equals `{numberOfUnoccupiedFrames + 1, …,
myMaxFrames}` — a permutation of a contiguous range, but anchored at the top
of `[1, myMaxFrames]`, not at 1.  It coincides with `{1..occupied_count}`
only once the cache is full. -/
theorem cache_priority_multiset (s : CacheState) (h : CacheReachable s) :
    prioMultiset s =
      (Finset.Icc ((s.numberOfUnoccupiedFrames : Int) + 1) (s.myMaxFrames : Int)).val := by
  obtain ⟨hu, hrange, hinj, hsurj, -⟩ := reachable_inv h
  have hmem : ∀ i, i ∈ Finset.Ico s.numberOfUnoccupiedFrames s.myMaxFrames ↔ occupied s i := by
    intro i
    rw [Finset.mem_Ico]
    exact Iff.rfl
  have hnodup : (prioMultiset s).Nodup := by
    unfold prioMultiset
    apply Multiset.Nodup.map_on
    · intro x hx y hy hxy
      rw [Finset.mem_val, hmem] at hx hy
      exact hinj x y hx hy hxy
    · exact (Finset.Ico _ _).nodup
  have hext : (⟨prioMultiset s, hnodup⟩ : Finset Int) =
      Finset.Icc ((s.numberOfUnoccupiedFrames : Int) + 1) (s.myMaxFrames : Int) := by
    apply Finset.ext
    intro p
    rw [Finset.mem_mk, Finset.mem_Icc]
    show p ∈ prioMultiset s ↔ _
    unfold prioMultiset
    rw [Multiset.mem_map]
    constructor
    · rintro ⟨i, hi, rfl⟩
      rw [Finset.mem_val, hmem] at hi
      exact hrange i hi
    · intro hp
      obtain ⟨i, hi, hip⟩ := hsurj p hp.1 hp.2
      exact ⟨i, by rw [Finset.mem_val, hmem]; exact hi, hip⟩
  exact congrArg Finset.val hext

/-- Concrete objects for the counterexamples and witnesses. -/
def junk0 : Nat → cachedFrame :=
  fun _ => { frame := 0, cartridge := 0, cache := fun _ => 0, priority := 0 }

def bufZ : Buf := fun _ => 0

/-- A capacity-2 cache holding one entry, reached by a single `put`. -/
def cacheS1 : CacheState :=
  runCacheOps (init_cart_cache 2 junk0) [CacheOp.put 0 0 bufZ]

/-- A capacity-2 cache after two `put`s of distinct keys. -/
def cacheS2 : CacheState :=
  runCacheOps (init_cart_cache 2 junk0) [CacheOp.put 0 0 bufZ, CacheOp.put 3 7 bufZ]

/-- C1 counterexample: after `init` (capacity 2) and a single `put`, the
occupied count is 1 but the single occupied priority is 2, so the multiset
of priorities is `{2}`, not `{1..occupied_count} = {1}`. -/
theorem cache_priority_claim_false :
    CacheReachable cacheS1 ∧
    prioMultiset cacheS1 ≠
      (Finset.Icc (1 : Int)
        ((cacheS1.myMaxFrames - cacheS1.numberOfUnoccupiedFrames : Nat) : Int)).val := by
  refine ⟨⟨2, junk0, [CacheOp.put 0 0 bufZ], rfl⟩, ?_⟩
  decide

/-- Witness for the amended C1 at a concrete reachable state. -/
theorem cache_priority_multiset_witness :
    prioMultiset cacheS1 =
      (Finset.Icc ((cacheS1.numberOfUnoccupiedFrames : Int) + 1)
        (cacheS1.myMaxFrames : Int)).val :=
  cache_priority_multiset cacheS1 ⟨2, junk0, [CacheOp.put 0 0 bufZ], rfl⟩

/-- C4 (corrected).  Immediately after a successful `put_cart_cache (c, f)`
or a hitting `get_cart_cache (c, f)`, the (unique) entry with key `(c, f)`
has priority `numberOfUnoccupiedFrames + 1` — the minimum priority among the
occupied entries, but equal to 1 only when the cache is full. -/
theorem cache_mru_promotion (s : CacheState) (h : CacheReachable s) (c f : Nat) (b : Buf)
    (s' : CacheState)
    (hop : put_cart_cache s c f b = some s' ∨ ∃ d, get_cart_cache s c f = (some d, s')) :
    ∃ t, occupied s' t ∧ (s'.myCache t).frame = f ∧ (s'.myCache t).cartridge = c ∧
      (s'.myCache t).priority = (s'.numberOfUnoccupiedFrames : Int) + 1 ∧
      ∀ j, occupied s' j → (s'.myCache j).frame = f → (s'.myCache j).cartridge = c →
        j = t := by
  have hinv := reachable_inv h
  cases hop with
  | inl hp =>
    obtain ⟨-, t, ht, htf, htc, htp, -⟩ := put_touched hinv hp
    have hinv' := put_some_inv hinv hp
    exact ⟨t, ht, htf, htc, htp, fun j hj hjf hjc =>
      hinv'.2.2.2.2 j t hj ht (by rw [hjf, htf]) (by rw [hjc, htc])⟩
  | inr hg =>
    obtain ⟨d, hg⟩ := hg
    obtain ⟨-, t, ht, htf, htc, htp, -⟩ := get_touched hg
    have hinv' : cacheInv s' := by
      have hg2 := get_inv (c := c) (f := f) hinv
      rw [hg] at hg2
      exact hg2
    exact ⟨t, ht, htf, htc, htp, fun j hj hjf hjc =>
      hinv'.2.2.2.2 j t hj ht (by rw [hjf, htf]) (by rw [hjc, htc])⟩

/-- C4 counterexample: in the capacity-2 cache after one `put (0,0)`, the
unique occupied entry — the one holding key `(0,0)`, "immediately after put
returns" — has priority 2, not 1. -/
theorem cache_mru_claim_false :
    CacheReachable cacheS1 ∧
    occupied cacheS1 1 ∧ (cacheS1.myCache 1).frame = 0 ∧
    (cacheS1.myCache 1).cartridge = 0 ∧ (cacheS1.myCache 1).priority ≠ 1 ∧
    ∀ j, occupied cacheS1 j → j = 1 := by
  refine ⟨⟨2, junk0, [CacheOp.put 0 0 bufZ], rfl⟩, by decide, by decide, by decide,
    by decide, ?_⟩
  intro j hj
  have h1 : 1 ≤ j := hj.1
  have h2 : j < 2 := hj.2
  omega

/-- Witness for the amended C4: in `cacheS2` (after `put (0,0)` then
`put (3,7)`), the entry bearing key `(3,7)` has the minimum priority. -/
theorem cache_mru_promotion_witness :
    ∃ t, occupied cacheS2 t ∧ (cacheS2.myCache t).frame = 7 ∧
      (cacheS2.myCache t).cartridge = 3 ∧
      (cacheS2.myCache t).priority = (cacheS2.numberOfUnoccupiedFrames : Int) + 1 ∧
      ∀ j, occupied cacheS2 j → (cacheS2.myCache j).frame = 7 →
        (cacheS2.myCache j).cartridge = 3 → j = t :=
  cache_mru_promotion cacheS1 ⟨2, junk0, [CacheOp.put 0 0 bufZ], rfl⟩ 3 7 bufZ cacheS2
    (Or.inl rfl)

/-- C10 (corrected).  In every reachable cache state of capacity at least 1,
a full cache always has a victim of priority `myMaxFrames`, and
`put_cart_cache` never takes the internal `-1` "logic error" branch.  (For
capacity 0 the branch is reachable; see the counterexample.) -/
theorem cache_put_never_fails (s : CacheState) (h : CacheReachable s)
    (hN : 1 ≤ s.myMaxFrames) :
    (s.numberOfUnoccupiedFrames = 0 →
      ∃ i, occupied s i ∧ (s.myCache i).priority = (s.myMaxFrames : Int)) ∧
    ∀ c f b, (put_cart_cache s c f b).isSome := by
  have hinv := reachable_inv h
  constructor
  · intro hu
    exact hinv.2.2.2.1 (s.myMaxFrames : Int) (by rw [hu]; omega) (by omega)
  · intro c f b
    exact put_isSome hinv hN

/-- C10 counterexample: with capacity 0 (`set_cart_cache_size(0)`), the cache
is "full" in its initial reachable state and `put_cart_cache` takes the
`return -1` branch. -/
theorem cache_put_claim_false :
    CacheReachable (init_cart_cache 0 junk0) ∧
    (init_cart_cache 0 junk0).numberOfUnoccupiedFrames = 0 ∧
    put_cart_cache (init_cart_cache 0 junk0) 0 0 bufZ = none :=
  ⟨⟨0, junk0, [], rfl⟩, rfl, rfl⟩

/-- Witness for the amended C10 at a concrete reachable capacity-2 state. -/
theorem cache_put_never_fails_witness :
    (cacheS1.numberOfUnoccupiedFrames = 0 →
      ∃ i, occupied cacheS1 i ∧ (cacheS1.myCache i).priority = (cacheS1.myMaxFrames : Int)) ∧
    ∀ c f b, (put_cart_cache cacheS1 c f b).isSome :=
  cache_put_never_fails cacheS1 ⟨2, junk0, [CacheOp.put 0 0 bufZ], rfl⟩ (by decide)

/-! ## Filesystem driver (`cart_driver.c`) -/

/-- The nested `location` structure of the `files` record: the counts
`cartridges`/`frames` use the code's "0 means 1" convention, and the
`occupiedCartridges`/`occupiedFrames` arrays are modelled as lists whose
length is the allocated number of `int`s. -/
structure location where
  cartridges : Nat
  occupiedCartridges : List Nat
  frames : Nat
  occupiedFrames : List Nat
  deriving DecidableEq, Repr

/-- The `files` record of `cart_driver.c`. `fileHandle` is `0` when closed,
positive when open. -/
structure files where
  fileName : List Nat
  length : Nat
  filePointer : Nat
  loc : location
  fileHandle : Nat
  deriving DecidableEq, Repr

/-- The global driver state: the `filesystem` array (`none` = the C `NULL`
pointer before the first `cart_open`), `fileSystemSize` ("0 means 1 file"),
the loaded-cartridge tracker and the allocation frontier — plus the state of
the remote controller behind the bus (its frame store and currently loaded
cartridge) and the trace of issued bus exchanges. -/
structure DriverState where
  filesystem : Option (List files)
  fileSystemSize : Nat
  currentlyLoadedCartridge : Nat
  nextFrame : Nat
  nextCartridge : Nat
  cache : CacheState
  busStore : Nat → Nat → Buf
  busLoaded : Nat
  busTrace : List (Nat × Nat × Nat)

/-- The all-zero buffer (used for the C `NULL` payload argument). -/
def zeroBuf : Buf := fun _ => 0

/-- The bytes the in-src client actually delivers to the controller on a
WRITE: `cart_client.c` line 146 is `write(client_socket, &buf,
CART_FRAME_SIZE)` — it sends the object representation of the *pointer
variable* `buf` (followed, when `CART_FRAME_SIZE > sizeof(void *)`, by
out-of-bounds stack reads), never the frame contents `buf` points to.  The
delivered value is indeterminate; it is modelled as a fixed junk buffer about
which no theorem in this file assumes anything. -/
def clientPointerBytes : Buf := fun _ => 0

/-- One bus exchange.  The remote controller itself is not part of this
repository and is modelled from the spec (§4.2 and §6: `LOAD` selects a
cartridge, `READ` returns the `FRAME_SIZE` bytes of the addressed frame of
the loaded cartridge, `WRITE` stores the bytes it receives, and on success
the returned `ret` is 0), but the transport *is* in src: the `WRITE` branch
of `client_cart_bus_request` (`cart_client.c` line 146) sends the pointer's
own bytes instead of the frame, so what the controller stores on opcode 4 is
`clientPointerBytes`, not the caller's payload.  The register fields are
truncated to their C widths (`uint8_t` opcode, `uint16_t` cartridge and
frame).  All claims below assume every exchange succeeds (`ret = 0`), so the
driver's `regstate.rt != 0` branches are never taken and are not modelled. -/
def runBusRequest (s : DriverState) (kyOne ctOne fmOne : Nat) (buf : Buf) :
    DriverState × Buf :=
  let s1 := { s with busTrace :=
    s.busTrace ++ [(kyOne % 2 ^ 8, ctOne % 2 ^ 16, fmOne % 2 ^ 16)] }
  match kyOne with
  | 2 => ({ s1 with busLoaded := ctOne % 2 ^ 16 }, buf)
  | 3 => (s1, s.busStore s.busLoaded (fmOne % 2 ^ 16))
  | 4 => ({ s1 with busStore := fun c' f' =>
      if c' = s.busLoaded ∧ f' = fmOne % 2 ^ 16 then clientPointerBytes
      else s.busStore c' f' }, buf)
  | _ => (s1, buf)

/-- The handle-resolution loop shared by `cart_close`/`cart_read`/
`cart_write`/`cart_seek`: index of the first record satisfying `p`. -/
def scanIdx (p : files → Bool) : List files → Option Nat
  | [] => none
  | r :: rs => if p r then some 0 else (scanIdx p rs).map (· + 1)

/-- `fileHandleAvailable` check of `cart_open`: is handle `h` already
assigned among the first `n` records? -/
def handleUsed (l : List files) (n h : Nat) : Bool :=
  (l.take n).any fun r => r.fileHandle == h

/-- The `do … while` handle search of `cart_open`: starting from candidate
`cand`, return the first handle not used among the first `n` records.  The C
loop always terminates because at most `n` handles are in use; `fuel ≥ n + 1`
makes the recursion structural without changing the result. -/
def freshHandleFrom (l : List files) (n : Nat) : Nat → Nat → Nat
  | 0, cand => cand
  | fuel + 1, cand =>
      if handleUsed l n cand then freshHandleFrom l n fuel (cand + 1) else cand

/-- The fresh handle assigned by `cart_open`: smallest positive integer not
currently assigned among the first `n` records. -/
def freshHandle (l : List files) (n : Nat) : Nat :=
  freshHandleFrom l n (n + 1) 1

/-- The single byte `dest[j]` after `strncpy(dest, src, n)`: `src[j]` if no
`NUL` occurs in `src[0..j-1]`, otherwise the `NUL` padding.  (C `strncpy`
stops copying at the first zero byte and zero-fills the remainder.) -/
def strncpyByte (src : Buf) (j : Nat) : Nat :=
  if (List.range j).any (fun t => src t == 0) then 0 else src j

/-- `strncpy(dest + off, src, n)` on function-modelled buffers. -/
def strncpyBuf (dest src : Buf) (off n : Nat) : Buf :=
  fun j => if off ≤ j ∧ j < off + n then strncpyByte src (j - off) else dest j

/-- `memcpy(dest + off, src, len)` on function-modelled buffers. -/
def spliceBuf (dest : Buf) (off len : Nat) (src : Buf) : Buf :=
  fun j => if off ≤ j ∧ j < off + len then src (j - off) else dest j

/-- The buffer starting `off` bytes into `b` (C pointer arithmetic
`&b[off]`). -/
def shiftBuf (b : Buf) (off : Nat) : Buf := fun j => b (off + j)

/-- The recurring idiom `if (currentlyLoadedCartridge != c) { LOAD c;
currentlyLoadedCartridge = c; }` of `cart_read`/`cart_write`. -/
def loadCartIfNeeded (s : DriverState) (c : Nat) : DriverState :=
  if s.currentlyLoadedCartridge ≠ c
  then { (runBusRequest s 2 c 0 zeroBuf).1 with currentlyLoadedCartridge := c }
  else s

/-- The common tail of both `cart_write` paths: load the owning cartridge if
needed, put the frame into the cache (result discarded, as in the C), then
WRITE it to the bus. -/
def writeFrameTail (s : DriverState) (c f : Nat) (sizeOfFrameBuf : Buf) : DriverState :=
  let s2 := loadCartIfNeeded s c
  let s3 := { s2 with cache := (put_cart_cache s2.cache c f sizeOfFrameBuf).getD s2.cache }
  (runBusRequest s3 4 0 f sizeOfFrameBuf).1

/-- One iteration of the `cart_poweron` loop: LOAD cartridge `i`, ZERO it,
record it as the currently loaded cartridge. -/
def poweronStep (s : DriverState) (i : Nat) : DriverState :=
  let s1 := (runBusRequest s 2 i 0 zeroBuf).1
  let s2 := (runBusRequest s1 1 0 0 zeroBuf).1
  { s2 with currentlyLoadedCartridge := i }

/-- `cart_poweron` of `cart_driver.c`: INIT, then LOAD + ZERO each cartridge
in `[0, CART_MAX_CARTRIDGES)` (the constant lives in the missing
`cart_controller.h`, so it is a parameter here), then `init_cart_cache`
(which allocates a fresh entry array of indeterminate contents `junk`; the
counters set earlier by `set_cart_cache_size` are untouched).  All bus
returns are assumed 0, so the error branches do not fire and the result is
0. -/
def cart_poweron (maxCartridges : Nat) (junk : Nat → cachedFrame) (s : DriverState) :
    Int × DriverState :=
  let s0 := (runBusRequest s 0 0 0 zeroBuf).1
  let s1 := (List.range maxCartridges).foldl poweronStep s0
  (0, { s1 with cache := { s1.cache with myCache := junk } })

/-- `cart_poweroff` of `cart_driver.c`: walk `filesystem[0..fileSystemSize]`
freeing each record, free the array, issue POWEROFF, close the cache.  When
no file was ever opened, `filesystem` is still the `NULL` pointer and the
very first loop iteration dereferences it (`filesystem[i].fileHandle = 0`):
undefined behaviour, modelled as `none`. -/
def cart_poweroff (s : DriverState) : Option (Int × DriverState) :=
  match s.filesystem with
  | none => none
  | some l =>
    if l.length ≠ s.fileSystemSize + 1 then none
    else
      let s1 := { s with filesystem := none }
      some (0, (runBusRequest s1 5 0 0 zeroBuf).1)

/-- `cart_open` of `cart_driver.c`.  Names are opaque byte lists (the C code
copies `strlen(path)` bytes without a terminator — spec §9.3; the comparison
is modelled as equality of the stored bytes).  Note the reopen branch: the
matching record `i` gets its cursor reset, but the fresh handle is written to
`filesystem[fileSystemSize]` — the *last* record (spec §9.4). -/
def cart_open (s : DriverState) (path : List Nat) : Option (Int × DriverState) :=
  match s.filesystem with
  | none =>
      let loc0 : location :=
        { cartridges := 0, occupiedCartridges := [0], frames := 0, occupiedFrames := [0] }
      let f0 : files :=
        { fileName := path, length := 0, filePointer := 0, loc := loc0, fileHandle := 1 }
      some (1, { s with filesystem := some [f0] })
  | some l =>
    if l.length ≠ s.fileSystemSize + 1 then none
    else
      match scanIdx (fun r => r.fileName == path) l with
      | some i =>
        match l.get? i with
        | none => none
        | some r =>
          if r.fileHandle ≠ 0 then some (-1, s)
          else
            let h := freshHandle l (s.fileSystemSize + 1)
            let l1 := l.set i { r with filePointer := 0 }
            match l1.get? s.fileSystemSize with
            | none => none
            | some rlast =>
              let l2 := l1.set s.fileSystemSize { rlast with fileHandle := h }
              some ((h : Int), { s with filesystem := some l2 })
      | none =>
        let h := freshHandle l (s.fileSystemSize + 1)
        let loc0 : location :=
          { cartridges := 0, occupiedCartridges := [0], frames := 0, occupiedFrames := [0] }
        let newRec : files :=
          { fileName := path, length := 0, filePointer := 0, loc := loc0, fileHandle := h }
        some ((h : Int),
          { s with filesystem := some (l ++ [newRec]), fileSystemSize := s.fileSystemSize + 1 })

/-- `cart_close` of `cart_driver.c`. -/
def cart_close (s : DriverState) (fd : Nat) : Option (Int × DriverState) :=
  match s.filesystem with
  | none => none
  | some l =>
    if l.length ≠ s.fileSystemSize + 1 then none
    else
      match scanIdx (fun r => r.fileHandle == fd) l with
      | none => some (-1, s)
      | some i =>
        match l.get? i with
        | none => none
        | some r =>
          if r.fileHandle = 0 then some (-1, s)
          else
            let l1 := l.set i { r with fileHandle := 0, filePointer := 0 }
            some (0, { s with filesystem := some l1 })

/-- `cart_seek` of `cart_driver.c`: resolve the handle; reject `loc >
length`; otherwise set the cursor. -/
def cart_seek (s : DriverState) (fd : Nat) (loc : Nat) : Option (Int × DriverState) :=
  match s.filesystem with
  | none => none
  | some l =>
    if l.length ≠ s.fileSystemSize + 1 then none
    else
      match scanIdx (fun r => r.fileHandle == fd) l with
      | none => some (-1, s)
      | some i =>
        match l.get? i with
        | none => none
        | some r =>
          if r.fileHandle = 0 then some (-1, s)
          else if r.length < loc then some (-1, s)
          else
            let l1 := l.set i { r with filePointer := loc }
            some (0, { s with filesystem := some l1 })

/-- One iteration of the frame-fetch loop shared by `cart_read` and
`cart_write`: look slot `i + start` up in the cache; on a miss, LOAD the
owning cartridge if needed and READ the frame from the bus; either way
deposit the frame at `localBuf[CART_FRAME_SIZE * i]`.  Out-of-bounds access
to the slot arrays is undefined behaviour (`none`). -/
def readSlot (FS : Nat) (r : files) (start : Nat) :
    DriverState × Buf → Nat → Option (DriverState × Buf)
  | (s, lb), i =>
    match r.loc.occupiedCartridges.get? (i + start), r.loc.occupiedFrames.get? (i + start) with
    | some c, some f =>
      match get_cart_cache s.cache c f with
      | (some d, cache1) =>
          some ({ s with cache := cache1 }, spliceBuf lb (FS * i) FS d)
      | (none, cache1) =>
          let sA := { s with cache := cache1 }
          let s2 := loadCartIfNeeded sA c
          let rd := (runBusRequest s2 3 0 f zeroBuf)
          some (rd.1, spliceBuf lb (FS * i) FS rd.2)
    | _, _ => none

/-- One iteration of the write-back loop of `cart_write`: LOAD the owning
cartridge if needed, `strncpy` the frame out of the working buffer into
`sizeOfFrameBuf` (truncating at a zero byte — the stack buffer's remaining
bytes are indeterminate, modelled as 0), put it into the cache (the return
value is discarded, as in the C), and WRITE it to the bus. -/
def writeSlot (FS : Nat) (r : files) (start : Nat) (lb : Buf) (s : DriverState) (i : Nat) :
    Option DriverState :=
  match r.loc.occupiedCartridges.get? (i + start), r.loc.occupiedFrames.get? (i + start) with
  | some c, some f =>
    let sizeOfFrameBuf : Buf :=
      fun j => if j < FS then strncpyByte (shiftBuf lb (FS * i)) j else 0
    some (writeFrameTail s c f sizeOfFrameBuf)
  | _, _ => none

/-- `cart_read` of `cart_driver.c`.  `FS` is `CART_FRAME_SIZE` (from the
missing `cart_controller.h`).  The fetch loop is guarded by
`i <= endFrameIndex - startFrameIndex && i <= location.frames`; note the
second conjunct clamps the loop counter `i`, not the accessed slot index
`i + startFrameIndex`.  Returns the count read, the caller's buffer after
the final `strncpy`, and the new state. -/
def cart_read (FS : Nat) (s : DriverState) (fd : Nat) (outBuf : Buf) (count : Nat) :
    Option (Int × Buf × DriverState) :=
  match s.filesystem with
  | none => none
  | some l =>
    if l.length ≠ s.fileSystemSize + 1 then none
    else
      match scanIdx (fun r => r.fileHandle == fd) l with
      | none => some (-1, outBuf, s)
      | some idx =>
        match l.get? idx with
        | none => none
        | some r =>
          if r.fileHandle = 0 then some (-1, outBuf, s)
          else
            let startFrameIndex := r.filePointer / FS
            let endFrameIndex := (r.filePointer + count) / FS
            let lb0 : Buf := zeroBuf
            match (List.range (min (endFrameIndex - startFrameIndex) r.loc.frames + 1)).foldlM
                (readSlot FS r startFrameIndex) (s, lb0) with
            | none => none
            | some (s1, lb) =>
              if r.filePointer + count > r.length then
                let i := r.length - r.filePointer
                let out1 := strncpyBuf outBuf
                  (shiftBuf lb (r.filePointer - startFrameIndex * FS)) 0 i
                let l1 := l.set idx { r with filePointer := r.length }
                some ((i : Int), out1, { s1 with filesystem := some l1 })
              else
                let out1 := strncpyBuf outBuf
                  (shiftBuf lb (r.filePointer - startFrameIndex * FS)) 0 count
                let l1 := l.set idx { r with filePointer := r.filePointer + count }
                some ((count : Int), out1, { s1 with filesystem := some l1 })

/-- `realloc` of an `int` array to `n` entries: contents preserved, new cells
indeterminate (modelled 0). -/
def resizeTo (n : Nat) (l : List Nat) : List Nat :=
  (l ++ List.replicate (n - l.length) 0).take n

/-- `cart_write` of `cart_driver.c`.  First-write path when `length == 0`
(allocate the first slot from the frontier, copy at most one frame);
otherwise the general path: possibly extend the slot arrays by exactly one
slot, read the touched frames through the cache, overlay the user bytes with
`strncpy`, write every touched frame back (cache + bus), update
length/cursor.  `none` models the C's undefined behaviour: `NULL`
filesystem, out-of-bounds slot access, or `strncpy` overflowing
`sizeOfFrameBuf`/`localBuf`. -/
def cart_write (FS : Nat) (s : DriverState) (fd : Nat) (buf : Buf) (count : Nat) :
    Option (Int × DriverState) :=
  match s.filesystem with
  | none => none
  | some l =>
    if l.length ≠ s.fileSystemSize + 1 then none
    else
      match scanIdx (fun r => r.fileHandle == fd) l with
      | none => some (-1, s)
      | some idx =>
        match l.get? idx with
        | none => none
        | some r =>
          if r.fileHandle = 0 then some (-1, s)
          else if r.length = 0 then
            if r.loc.occupiedFrames.length = 0 ∨ r.loc.occupiedCartridges.length = 0 then none
            else if FS < count then none
            else
              let loc1 : location :=
                { cartridges := 0,
                  occupiedCartridges := r.loc.occupiedCartridges.set 0 s.nextCartridge,
                  frames := 0,
                  occupiedFrames := r.loc.occupiedFrames.set 0 s.nextFrame }
              let sA := if s.nextFrame + 1 = FS
                then { s with nextFrame := 0, nextCartridge := s.nextCartridge + 1 }
                else { s with nextFrame := s.nextFrame + 1 }
              let r1 := { r with loc := loc1, length := count, filePointer := count }
              let sizeOfFrameBuf : Buf :=
                fun j => if j < count then strncpyByte buf j else 0
              let c0 := loc1.occupiedCartridges.getD 0 0
              let f0 := loc1.occupiedFrames.getD 0 0
              let s4 := writeFrameTail sA c0 f0 sizeOfFrameBuf
              some ((count : Int), { s4 with filesystem := some (l.set idx r1) })
          else
            let r1 :=
              if r.filePointer + count > (r.loc.frames + 1) * FS then
                { r with loc :=
                  { r.loc with
                    frames := r.loc.frames + 1,
                    occupiedFrames :=
                      (resizeTo (r.loc.frames + 2) r.loc.occupiedFrames).set
                        (r.loc.frames + 1) s.nextFrame,
                    occupiedCartridges :=
                      (resizeTo (r.loc.frames + 2) r.loc.occupiedCartridges).set
                        (r.loc.frames + 1) s.nextCartridge } }
              else r
            let sA :=
              if r.filePointer + count > (r.loc.frames + 1) * FS then
                if s.nextFrame + 1 = FS
                then { s with nextFrame := 0, nextCartridge := s.nextCartridge + 1 }
                else { s with nextFrame := s.nextFrame + 1 }
              else s
            let startFrameIndex := r.filePointer / FS
            let endFrameIndex :=
              if (r.filePointer + count) % FS ≠ 0 then (r.filePointer + count) / FS
              else startFrameIndex
            if (endFrameIndex - startFrameIndex + 1) * FS <
                (r.filePointer - startFrameIndex * FS) + count then none
            else
              match (List.range (endFrameIndex - startFrameIndex + 1)).foldlM
                  (readSlot FS r1 startFrameIndex) (sA, zeroBuf) with
              | none => none
              | some (s1, lb) =>
                let lb1 := strncpyBuf lb buf (r.filePointer - startFrameIndex * FS) count
                match (List.range (endFrameIndex - startFrameIndex + 1)).foldlM
                    (writeSlot FS r1 startFrameIndex lb1) s1 with
                | none => none
                | some s2 =>
                  let r2 :=
                    if r.length < r.filePointer + count then
                      { r1 with
                        length := r.length + count - (r.length - r.filePointer),
                        filePointer := r.length + count - (r.length - r.filePointer) }
                    else { r1 with filePointer := r.filePointer + count }
                  some ((count : Int), { s2 with filesystem := some (l.set idx r2) })

/-- The driver state at program start: all globals zero-initialized,
`filesystem = NULL`, the cache sized by the harness
(`set_cart_cache_size`) but not yet initialized. -/
def initialDriverState (cacheCap : Nat) (cacheJunk : Nat → cachedFrame) : DriverState :=
  { filesystem := none, fileSystemSize := 0, currentlyLoadedCartridge := 0,
    nextFrame := 0, nextCartridge := 0,
    cache := init_cart_cache cacheCap cacheJunk,
    busStore := fun _ _ => zeroBuf, busLoaded := 0, busTrace := [] }

/-! ### Driver claims: concrete scenario states -/

/-- All-ones user buffer. -/
def bufOnes : Buf := fun _ => 1

/-- Fallback record for `getD` projections. -/
def filesDefault : files :=
  { fileName := [], length := 0, filePointer := 0,
    loc := { cartridges := 0, occupiedCartridges := [], frames := 0, occupiedFrames := [] },
    fileHandle := 0 }

/-- State after `cart_open("a")` on the pristine driver (frame size 2,
cache capacity 2 in the scenarios below). -/
def drvA : DriverState :=
  ((cart_open (initialDriverState 2 junk0) [97]).getD (0, initialDriverState 2 junk0)).2

/-- State after writing the two bytes `[1, 1]` to handle 1 (one full frame,
`CART_FRAME_SIZE = 2`): the file has 1 slot, length 2, cursor 2. -/
def drvB : DriverState := ((cart_write 2 drvA 1 bufOnes 2).getD (0, drvA)).2

def drvBlist : List files := drvB.filesystem.getD []

def drvBr : files := drvBlist.getD 0 filesDefault

/-- C7 (code bug).  `cart_read` on a 1-slot file with cursor at
`CART_FRAME_SIZE` (= 2 here) and `count = 1` computes
`startFrameIndex = 1` and accesses `occupiedFrames[i + startFrameIndex] =
occupiedFrames[1]` — one past the 1-entry slot array — because the loop
guard `i <= location.frames` clamps the loop counter `i`, not the accessed
index `i + startFrameIndex`.  The claim (and the code's own comment) say no
access goes beyond the slot list; the model returns `none` (undefined
behaviour) at exactly that access. -/
theorem read_oob_slot_index :
    cart_open (initialDriverState 2 junk0) [97] = some (1, drvA) ∧
    cart_write 2 drvA 1 bufOnes 2 = some (2, drvB) ∧
    (∃ l r, drvB.filesystem = some l ∧ l.get? 0 = some r ∧ r.fileHandle = 1 ∧
      r.length = 2 ∧ r.filePointer = 2 ∧
      r.loc.frames = 0 ∧ r.loc.occupiedFrames.length = 1 ∧
      r.loc.occupiedCartridges.length = 1 ∧
      r.filePointer / 2 + 0 = 1) ∧
    cart_read 2 drvB 1 zeroBuf 1 = none := by
  exact ⟨rfl, rfl, ⟨_, _, rfl, rfl, rfl, rfl, rfl, rfl, rfl, rfl, rfl⟩, rfl⟩

/-- C8 (confirmed).  `cart_seek` on an open handle: `loc > length` yields
`-1` and leaves the entire driver state unchanged; `loc ≤ length` sets the
cursor to `loc` and returns 0 (all other state unchanged). -/
theorem seek_bounds (s : DriverState) (fd loc : Nat) (l : List files) (idx : Nat)
    (r : files) (hfs : s.filesystem = some l) (hlen : l.length = s.fileSystemSize + 1)
    (hscan : scanIdx (fun q => q.fileHandle == fd) l = some idx)
    (hget : l.get? idx = some r) (hopen : r.fileHandle ≠ 0) :
    (r.length < loc → cart_seek s fd loc = some (-1, s)) ∧
    (loc ≤ r.length →
      cart_seek s fd loc =
        some (0, { s with filesystem := some (l.set idx { r with filePointer := loc }) })) := by
  have hred : cart_seek s fd loc =
      (if r.fileHandle = 0 then some (-1, s)
       else if r.length < loc then some (-1, s)
       else
         let l1 := l.set idx { r with filePointer := loc }
         some (0, { s with filesystem := some l1 })) := by
    unfold cart_seek
    rw [hfs]
    show (if l.length ≠ s.fileSystemSize + 1 then none else _) = _
    rw [if_neg (by rw [hlen]; exact fun hco => hco rfl)]
    rw [hscan]
    show (match l.get? idx with
      | none => none
      | some r =>
        if r.fileHandle = 0 then some (-1, s)
        else if r.length < loc then some (-1, s)
        else
          let l1 := l.set idx { r with filePointer := loc }
          some (0, { s with filesystem := some l1 })) = _
    rw [hget]
  rw [hred, if_neg hopen]
  constructor
  · intro hlt
    rw [if_pos hlt]
  · intro hle
    rw [if_neg (by omega)]

/-- Witness for C8: seeking past the end (`loc = 3 > length = 2`) of the
1-slot file of `drvB` returns `-1` with the state unchanged. -/
theorem seek_bounds_witness : cart_seek drvB 1 3 = some (-1, drvB) :=
  (seek_bounds drvB 1 3 drvBlist 0 drvBr rfl rfl rfl rfl (by decide)).1 (by decide)

/-- State after `open("a"); open("b")`: records `[a (handle 1), b (handle 2)]`. -/
def drvO2 : DriverState := ((cart_open drvA [98]).getD (0, drvA)).2

/-- State after additionally `close(1)`: `a` closed, `b` still open. -/
def drvO3 : DriverState := ((cart_close drvO2 1).getD (0, drvO2)).2

/-- State after reopening `"a"`. -/
def drvO4 : DriverState := ((cart_open drvO3 [97]).getD (0, drvO3)).2

/-- C5 (code bug).  Reopening a closed file writes the fresh handle to the
*last* record instead of the matching one: after `open("a"); open("b");
close(handle of a); open("a")`, the fresh handle 1 (smallest unused) is
returned, the matching record `"a"` has its cursor reset but stays closed
(handle 0), and the last record `"b"` — which was open with handle 2 — has
its handle clobbered to 1. -/
theorem open_reopen_wrong_record :
    cart_open (initialDriverState 2 junk0) [97] = some (1, drvA) ∧
    cart_open drvA [98] = some (2, drvO2) ∧
    cart_close drvO2 1 = some (0, drvO3) ∧
    cart_open drvO3 [97] = some (1, drvO4) ∧
    (∃ l, drvO4.filesystem = some l ∧
      (l.get? 0).map files.fileName = some [97] ∧
      (l.get? 0).map files.fileHandle = some 0 ∧
      (l.get? 0).map files.filePointer = some 0 ∧
      (l.get? 1).map files.fileName = some [98] ∧
      (l.get? 1).map files.fileHandle = some 1) := by
  exact ⟨rfl, rfl, rfl, rfl, ⟨_, rfl, rfl, rfl, rfl, rfl, rfl⟩⟩

/-! ### C6: poweron / poweroff -/

/-- Effect of one `cart_poweron` loop iteration. -/
theorem poweronStep_spec (s : DriverState) (i : Nat) :
    (poweronStep s i).busTrace = s.busTrace ++ [(2, i % 2 ^ 16, 0), (1, 0, 0)] ∧
    (poweronStep s i).currentlyLoadedCartridge = i ∧
    (poweronStep s i).filesystem = s.filesystem ∧
    (poweronStep s i).fileSystemSize = s.fileSystemSize := by
  refine ⟨?_, rfl, rfl, rfl⟩
  show (s.busTrace ++ [(2 % 2 ^ 8, i % 2 ^ 16, 0 % 2 ^ 16)]) ++ [(1 % 2 ^ 8, 0 % 2 ^ 16, 0 % 2 ^ 16)] =
    s.busTrace ++ [(2, i % 2 ^ 16, 0), (1, 0, 0)]
  rw [List.append_assoc]
  norm_num

/-- Effect of the whole LOAD/ZERO loop of `cart_poweron`. -/
theorem poweron_loop_spec (maxC : Nat) (s : DriverState) :
    ((List.range maxC).foldl poweronStep s).busTrace =
      s.busTrace ++ (List.range maxC).flatMap (fun i => [(2, i % 2 ^ 16, 0), (1, 0, 0)]) ∧
    ((List.range maxC).foldl poweronStep s).currentlyLoadedCartridge =
      (if maxC = 0 then s.currentlyLoadedCartridge else maxC - 1) ∧
    ((List.range maxC).foldl poweronStep s).filesystem = s.filesystem ∧
    ((List.range maxC).foldl poweronStep s).fileSystemSize = s.fileSystemSize := by
  induction maxC generalizing s with
  | zero => simp
  | succ n ih =>
    rw [List.range_succ, List.foldl_append, List.foldl_cons, List.foldl_nil]
    obtain ⟨ih1, ih2, ih3, ih4⟩ := ih s
    obtain ⟨hs1, hs2, hs3, hs4⟩ := poweronStep_spec ((List.range n).foldl poweronStep s) n
    refine ⟨?_, ?_, ?_, ?_⟩
    · rw [hs1, ih1, List.append_assoc]
      congr 1
      rw [List.flatMap_append]
      simp [List.flatMap]
    · rw [hs2]
      simp
    · rw [hs3, ih3]
    · rw [hs4, ih4]

/-- Length of the LOAD/ZERO exchange block. -/
theorem loadzero_trace_length (n : Nat) :
    ((List.range n).flatMap
      (fun i => [((2 : Nat), i % 2 ^ 16, (0 : Nat)), (1, 0, 0)])).length = 2 * n := by
  induction n with
  | zero => rfl
  | succ k ih =>
    rw [List.range_succ, List.flatMap_append, List.length_append, ih]
    simp [List.flatMap]
    omega

/-- C6 (code bug).  `cart_poweron()` immediately followed by
`cart_poweroff()` with no intervening file operations (all bus return codes
0): `poweron` returns 0 after exactly `1 INIT + CART_MAX_CARTRIDGES × (LOAD
then ZERO, in order)` exchanges and leaves the last cartridge loaded — but
`cart_poweroff` then dereferences the still-`NULL` `filesystem` pointer in
its cleanup loop (`filesystem[i].fileHandle = 0`) before ever issuing the
POWEROFF exchange: undefined behaviour (`none`), not the claimed 0 return
and final POWEROFF exchange. -/
theorem poweron_poweroff_cycle (maxCartridges : Nat) (h1 : 1 ≤ maxCartridges)
    (h2 : maxCartridges ≤ 2 ^ 16) (cacheCap : Nat) (cacheJunk junk : Nat → cachedFrame) :
    (cart_poweron maxCartridges junk (initialDriverState cacheCap cacheJunk)).1 = 0 ∧
    (cart_poweron maxCartridges junk (initialDriverState cacheCap cacheJunk)).2.busTrace =
      (0, 0, 0) :: (List.range maxCartridges).flatMap (fun i => [(2, i, 0), (1, 0, 0)]) ∧
    (cart_poweron maxCartridges junk
        (initialDriverState cacheCap cacheJunk)).2.busTrace.length =
      1 + 2 * maxCartridges ∧
    (cart_poweron maxCartridges junk
        (initialDriverState cacheCap cacheJunk)).2.currentlyLoadedCartridge =
      maxCartridges - 1 ∧
    cart_poweroff (cart_poweron maxCartridges junk
      (initialDriverState cacheCap cacheJunk)).2 = none := by
  set s0 := (runBusRequest (initialDriverState cacheCap cacheJunk) 0 0 0 zeroBuf).1 with hs0
  obtain ⟨hl1, hl2, hl3, hl4⟩ := poweron_loop_spec maxCartridges s0
  have htr0 : s0.busTrace = [(0, 0, 0)] := rfl
  have hfs0 : s0.filesystem = none := rfl
  have hbind : (List.range maxCartridges).flatMap (fun i => [(2, i % 2 ^ 16, 0), (1, 0, 0)]) =
      (List.range maxCartridges).flatMap (fun i => [(2, i, 0), (1, 0, 0)]) := by
    apply List.flatMap_congr
    intro i hi
    rw [List.mem_range] at hi
    rw [Nat.mod_eq_of_lt (by omega)]
  have hP : cart_poweron maxCartridges junk (initialDriverState cacheCap cacheJunk) =
      (0, { (List.range maxCartridges).foldl poweronStep s0 with
        cache := { ((List.range maxCartridges).foldl poweronStep s0).cache with
          myCache := junk } }) := rfl
  rw [hP]
  refine ⟨rfl, ?_, ?_, ?_, ?_⟩
  · show ((List.range maxCartridges).foldl poweronStep s0).busTrace = _
    rw [hl1, htr0, hbind]
    rfl
  · show ((List.range maxCartridges).foldl poweronStep s0).busTrace.length = _
    rw [hl1, htr0]
    rw [List.length_append, loadzero_trace_length]
    rfl
  · show ((List.range maxCartridges).foldl poweronStep s0).currentlyLoadedCartridge = _
    rw [hl2, if_neg (by omega)]
  · show cart_poweroff { (List.range maxCartridges).foldl poweronStep s0 with
      cache := _ } = none
    unfold cart_poweroff
    have : ({ (List.range maxCartridges).foldl poweronStep s0 with
        cache := { ((List.range maxCartridges).foldl poweronStep s0).cache with
          myCache := junk } } : DriverState).filesystem = none := by
      show ((List.range maxCartridges).foldl poweronStep s0).filesystem = none
      rw [hl3, hfs0]
    rw [this]

/-- Witness for C6 at `CART_MAX_CARTRIDGES = 64`. -/
theorem poweron_poweroff_cycle_witness :
    (cart_poweron 64 junk0 (initialDriverState 2 junk0)).1 = 0 ∧
    (cart_poweron 64 junk0 (initialDriverState 2 junk0)).2.busTrace =
      (0, 0, 0) :: (List.range 64).flatMap (fun i => [(2, i, 0), (1, 0, 0)]) ∧
    (cart_poweron 64 junk0 (initialDriverState 2 junk0)).2.busTrace.length = 1 + 2 * 64 ∧
    (cart_poweron 64 junk0 (initialDriverState 2 junk0)).2.currentlyLoadedCartridge = 64 - 1 ∧
    cart_poweroff (cart_poweron 64 junk0 (initialDriverState 2 junk0)).2 = none :=
  poweron_poweroff_cycle 64 (by decide) (by decide) 2 junk0 junk0

/-! ### C2: write / seek / read round-trip -/

theorem get?_zero_pos {α : Type} {l : List α} (h : 0 < l.length) :
    ∃ a, l.get? 0 = some a := by
  cases l with
  | nil => simp at h
  | cons a t => exact ⟨a, rfl⟩

theorem scanIdx_some {p : files → Bool} {l : List files} {i : Nat}
    (h : scanIdx p l = some i) : ∃ x, l.get? i = some x ∧ p x = true := by
  induction l generalizing i with
  | nil => cases h
  | cons r rs ih =>
    rw [scanIdx] at h
    by_cases hp : p r
    · rw [if_pos hp] at h
      injection h with h
      subst h
      exact ⟨r, rfl, hp⟩
    · rw [if_neg hp] at h
      cases hrs : scanIdx p rs with
      | none => rw [hrs] at h; cases h
      | some j =>
        rw [hrs] at h
        injection h with h
        obtain ⟨x, hx1, hx2⟩ := ih hrs
        subst h
        exact ⟨x, by simpa using hx1, hx2⟩

theorem scanIdx_set_stable {p : files → Bool} {l : List files} {i : Nat} {x : files}
    (h : scanIdx p l = some i) (hx : p x = true) :
    scanIdx p (l.set i x) = some i := by
  induction l generalizing i with
  | nil => cases h
  | cons r rs ih =>
    rw [scanIdx] at h
    by_cases hp : p r
    · rw [if_pos hp] at h
      injection h with h
      subst h
      show scanIdx p (x :: rs) = some 0
      rw [scanIdx, if_pos hx]
    · rw [if_neg hp] at h
      cases hrs : scanIdx p rs with
      | none => rw [hrs] at h; cases h
      | some j =>
        rw [hrs] at h
        injection h with h
        subst h
        show scanIdx p (r :: rs.set j x) = some (j + 1)
        rw [scanIdx, if_neg hp, ih hrs]
        rfl

theorem strncpyByte_nz {src : Buf} {m : Nat} (h : ∀ t, t < m → src t ≠ 0) :
    ∀ j, j < m → strncpyByte src j = src j := by
  intro j hj
  unfold strncpyByte
  rw [if_neg]
  intro hcon
  rw [List.any_eq_true] at hcon
  obtain ⟨t, ht, hteq⟩ := hcon
  rw [List.mem_range] at ht
  rw [beq_iff_eq] at hteq
  exact h t (by omega) hteq

theorem put_getD_inv {ch : CacheState} {c f : Nat} {b : Buf} (h : cacheInv ch) :
    cacheInv ((put_cart_cache ch c f b).getD ch) := by
  cases hp : put_cart_cache ch c f b with
  | some ch1 =>
    rw [Option.getD_some]
    exact put_some_inv h hp
  | none =>
    rw [Option.getD_none]
    exact h

theorem put_then_get {ch : CacheState} {c f : Nat} {b : Buf} (h : cacheInv ch)
    {d : Buf} {cc : CacheState}
    (hg : get_cart_cache ((put_cart_cache ch c f b).getD ch) c f = (some d, cc)) :
    d = b := by
  cases hp : put_cart_cache ch c f b with
  | some ch1 =>
    rw [hp, Option.getD_some] at hg
    obtain ⟨-, t, ht, htf, htc, -, htd⟩ := put_touched h hp
    have hinv1 := put_some_inv h hp
    have hkey := get_data_of_key hinv1 ht htf htc htd
    have h1 : (get_cart_cache ch1 c f).1 = some d := by rw [hg]
    rw [hkey] at h1
    injection h1 with h1
    exact h1.symm
  | none =>
    rw [hp, Option.getD_none] at hg
    obtain ⟨hk, -, -⟩ := put_none_iff.1 hp
    rw [get_miss_eq hk] at hg
    injection hg with hg1 hg2
    exact Option.noConfusion hg1

theorem get_myMaxFrames (s : CacheState) (c f : Nat) :
    ((get_cart_cache s c f).2).myMaxFrames = s.myMaxFrames := by
  cases hk : findKey s c f with
  | some i =>
    rw [get_hit_eq hk]
    exact touchEntry_myMaxFrames s i
  | none =>
    rw [get_miss_eq hk]

theorem put_then_get_hit {ch : CacheState} {c f : Nat} {b : Buf}
    (h : cacheInv ch) (hN : 1 ≤ ch.myMaxFrames) :
    ∃ d cc, get_cart_cache ((put_cart_cache ch c f b).getD ch) c f = (some d, cc) ∧
      d = b := by
  have hs := put_isSome (c := c) (f := f) (b := b) h hN
  cases hp : put_cart_cache ch c f b with
  | none =>
    rw [hp] at hs
    exact Bool.noConfusion hs
  | some ch1 =>
    rw [Option.getD_some]
    obtain ⟨hM, t, ht, htf, htc, -, htd⟩ := put_touched h hp
    have hinv1 := put_some_inv h hp
    have hkey := get_data_of_key hinv1 ht htf htc htd
    rcases hg : get_cart_cache ch1 c f with ⟨o, cc⟩
    rw [hg] at hkey
    have ho : o = some b := hkey
    refine ⟨b, cc, ?_, rfl⟩
    rw [ho]

theorem loadCartIfNeeded_spec (σ : DriverState) (c : Nat) (hc : c < 2 ^ 16)
    (hsync : σ.busLoaded = σ.currentlyLoadedCartridge) :
    (loadCartIfNeeded σ c).currentlyLoadedCartridge = c ∧
    (loadCartIfNeeded σ c).busLoaded = c ∧
    (loadCartIfNeeded σ c).cache = σ.cache ∧
    (loadCartIfNeeded σ c).busStore = σ.busStore ∧
    (loadCartIfNeeded σ c).filesystem = σ.filesystem ∧
    (loadCartIfNeeded σ c).fileSystemSize = σ.fileSystemSize := by
  unfold loadCartIfNeeded
  by_cases h : σ.currentlyLoadedCartridge ≠ c
  · rw [if_pos h]
    refine ⟨rfl, ?_, rfl, rfl, rfl, rfl⟩
    show c % 2 ^ 16 = c
    exact Nat.mod_eq_of_lt hc
  · rw [if_neg h]
    push_neg at h
    exact ⟨h, by rw [hsync, h], rfl, rfl, rfl, rfl⟩

theorem busWrite_spec (σ : DriverState) (f : Nat) (b : Buf) :
    ((runBusRequest σ 4 0 f b).1).busLoaded = σ.busLoaded ∧
    ((runBusRequest σ 4 0 f b).1).currentlyLoadedCartridge = σ.currentlyLoadedCartridge ∧
    ((runBusRequest σ 4 0 f b).1).cache = σ.cache ∧
    ((runBusRequest σ 4 0 f b).1).filesystem = σ.filesystem ∧
    ((runBusRequest σ 4 0 f b).1).fileSystemSize = σ.fileSystemSize :=
  ⟨rfl, rfl, rfl, rfl, rfl⟩

theorem writeFrameTail_spec (σ : DriverState) (c0 f0 : Nat) (sob : Buf)
    (hsync : σ.busLoaded = σ.currentlyLoadedCartridge) (hcinv : cacheInv σ.cache)
    (hc0 : c0 < 2 ^ 16) :
    (writeFrameTail σ c0 f0 sob).filesystem = σ.filesystem ∧
    (writeFrameTail σ c0 f0 sob).fileSystemSize = σ.fileSystemSize ∧
    cacheInv (writeFrameTail σ c0 f0 sob).cache ∧
    (writeFrameTail σ c0 f0 sob).busLoaded = c0 ∧
    (writeFrameTail σ c0 f0 sob).currentlyLoadedCartridge = c0 ∧
    (1 ≤ σ.cache.myMaxFrames →
      ∃ d cc, get_cart_cache (writeFrameTail σ c0 f0 sob).cache c0 f0 = (some d, cc) ∧
        d = sob) := by
  obtain ⟨hl1, hl2, hl3, hl4, hl5, hl6⟩ := loadCartIfNeeded_spec σ c0 hc0 hsync
  set s2 := loadCartIfNeeded σ c0 with hs2
  set ch3 := (put_cart_cache s2.cache c0 f0 sob).getD s2.cache with hch3
  set s3 : DriverState := { s2 with cache := ch3 } with hs3
  have hWT : writeFrameTail σ c0 f0 sob = (runBusRequest s3 4 0 f0 sob).1 := rfl
  obtain ⟨hw2, hw3, hw4, hw5, hw6⟩ := busWrite_spec s3 f0 sob
  rw [hWT]
  have hch : ch3 = (put_cart_cache σ.cache c0 f0 sob).getD σ.cache := by
    rw [hch3, hl3]
  refine ⟨?_, ?_, ?_, ?_, ?_, ?_⟩
  · rw [hw5]
    show s2.filesystem = σ.filesystem
    exact hl5
  · rw [hw6]
    show s2.fileSystemSize = σ.fileSystemSize
    exact hl6
  · rw [hw4]
    show cacheInv ch3
    rw [hch]
    exact put_getD_inv hcinv
  · rw [hw2]
    show s2.busLoaded = c0
    exact hl2
  · rw [hw3]
    show s2.currentlyLoadedCartridge = c0
    exact hl1
  · intro hcap
    rw [hw4]
    show ∃ d cc, get_cart_cache ch3 c0 f0 = (some d, cc) ∧ d = sob
    rw [hch]
    exact put_then_get_hit hcinv hcap

theorem readSlot_spec (FS : Nat) (r1 : files) (start i : Nat) (σ : DriverState) (lb : Buf)
    (c f : Nat)
    (hc : r1.loc.occupiedCartridges.get? (i + start) = some c)
    (hf : r1.loc.occupiedFrames.get? (i + start) = some f)
    (hc16 : c < 2 ^ 16) (hf16 : f < 2 ^ 16)
    (hsync : σ.busLoaded = σ.currentlyLoadedCartridge)
    (hcinv : cacheInv σ.cache) :
    ∃ σ1 X, readSlot FS r1 start (σ, lb) i = some (σ1, spliceBuf lb (FS * i) FS X) ∧
      σ1.filesystem = σ.filesystem ∧ σ1.fileSystemSize = σ.fileSystemSize ∧
      σ1.busStore = σ.busStore ∧ σ1.busLoaded = σ1.currentlyLoadedCartridge ∧
      cacheInv σ1.cache ∧ σ1.cache.myMaxFrames = σ.cache.myMaxFrames ∧
      ((∃ cc, get_cart_cache σ.cache c f = (some X, cc)) ∨
        ((get_cart_cache σ.cache c f).1 = none ∧ X = σ.busStore c f)) := by
  have hred : readSlot FS r1 start (σ, lb) i =
      (match get_cart_cache σ.cache c f with
       | (some d, cache1) =>
           some ({ σ with cache := cache1 }, spliceBuf lb (FS * i) FS d)
       | (none, cache1) =>
           let sA := { σ with cache := cache1 }
           let s2 := loadCartIfNeeded sA c
           let rd := (runBusRequest s2 3 0 f zeroBuf)
           some (rd.1, spliceBuf lb (FS * i) FS rd.2)) := by
    show (match r1.loc.occupiedCartridges.get? (i + start),
        r1.loc.occupiedFrames.get? (i + start) with
      | some c, some f =>
        match get_cart_cache σ.cache c f with
        | (some d, cache1) =>
            some ({ σ with cache := cache1 }, spliceBuf lb (FS * i) FS d)
        | (none, cache1) =>
            let sA := { σ with cache := cache1 }
            let s2 := loadCartIfNeeded sA c
            let rd := (runBusRequest s2 3 0 f zeroBuf)
            some (rd.1, spliceBuf lb (FS * i) FS rd.2)
      | _, _ => none) = _
    rw [hc, hf]
  rcases hgc : get_cart_cache σ.cache c f with ⟨o, cc⟩
  cases o with
  | some d =>
    refine ⟨{ σ with cache := cc }, d, ?_, rfl, rfl, rfl, hsync, ?_, ?_, ?_⟩
    · rw [hred, hgc]
    · show cacheInv cc
      have hgi := get_inv (c := c) (f := f) hcinv
      rw [hgc] at hgi
      exact hgi
    · show cc.myMaxFrames = σ.cache.myMaxFrames
      have hgm := get_myMaxFrames σ.cache c f
      rw [hgc] at hgm
      exact hgm
    · exact Or.inl ⟨cc, rfl⟩
  | none =>
    have hccσ : cc = σ.cache := by
      cases hk : findKey σ.cache c f with
      | some j =>
        rw [get_hit_eq hk] at hgc
        injection hgc with hgc1 hgc2
        exact Option.noConfusion hgc1
      | none =>
        rw [get_miss_eq hk] at hgc
        injection hgc with hgc1 hgc2
        exact hgc2.symm
    obtain ⟨hl1, hl2, hl3, hl4, hl5, hl6⟩ :=
      loadCartIfNeeded_spec { σ with cache := cc } c hc16 hsync
    refine ⟨(runBusRequest (loadCartIfNeeded { σ with cache := cc } c) 3 0 f zeroBuf).1,
      (runBusRequest (loadCartIfNeeded { σ with cache := cc } c) 3 0 f zeroBuf).2,
      ?_, ?_, ?_, ?_, ?_, ?_, ?_, ?_⟩
    · rw [hred, hgc]
    · show (loadCartIfNeeded { σ with cache := cc } c).filesystem = σ.filesystem
      rw [hl5]
    · show (loadCartIfNeeded { σ with cache := cc } c).fileSystemSize = σ.fileSystemSize
      rw [hl6]
    · show (loadCartIfNeeded { σ with cache := cc } c).busStore = σ.busStore
      rw [hl4]
    · show (loadCartIfNeeded { σ with cache := cc } c).busLoaded =
        (loadCartIfNeeded { σ with cache := cc } c).currentlyLoadedCartridge
      rw [hl1, hl2]
    · show cacheInv (loadCartIfNeeded { σ with cache := cc } c).cache
      rw [hl3]
      show cacheInv cc
      rw [hccσ]
      exact hcinv
    · show ((loadCartIfNeeded { σ with cache := cc } c).cache).myMaxFrames =
        σ.cache.myMaxFrames
      rw [hl3]
      show cc.myMaxFrames = σ.cache.myMaxFrames
      rw [hccσ]
    · refine Or.inr ⟨rfl, ?_⟩
      show (loadCartIfNeeded { σ with cache := cc } c).busStore
        (loadCartIfNeeded { σ with cache := cc } c).busLoaded (f % 2 ^ 16) = σ.busStore c f
      rw [hl4, hl2, Nat.mod_eq_of_lt hf16]

theorem writeSlot_eq (FS : Nat) (r1 : files) (start : Nat) (lb : Buf) (σ : DriverState)
    (i c f : Nat)
    (hc : r1.loc.occupiedCartridges.get? (i + start) = some c)
    (hf : r1.loc.occupiedFrames.get? (i + start) = some f) :
    writeSlot FS r1 start lb σ i =
      some (writeFrameTail σ c f
        (fun j => if j < FS then strncpyByte (shiftBuf lb (FS * i)) j else 0)) := by
  unfold writeSlot
  rw [hc, hf]

theorem foldlM_option_one {α β : Type} (f : β → α → Option β) (b : β) (a : α) :
    List.foldlM f b [a] = f b a := by
  simp only [List.foldlM_cons, List.foldlM_nil]
  cases f b a <;> rfl

theorem foldlM_option_two {α β : Type} (f : β → α → Option β) (b : β) (a1 a2 : α) :
    List.foldlM f b [a1, a2] = Option.bind (f b a1) (fun b1 => f b1 a2) := by
  rw [List.foldlM_cons]
  cases f b a1 with
  | none => rfl
  | some b1 =>
    show List.foldlM f b1 [a2] = f b1 a2
    exact foldlM_option_one f b1 a2

theorem getD_ne_zero {buf : List Nat} (hnz : ∀ b ∈ buf, b ≠ 0) {t : Nat}
    (ht : t < buf.length) : buf.getD t 0 ≠ 0 := by
  rw [List.getD_eq_getElem?_getD, List.getElem?_eq_getElem ht, Option.getD_some]
  exact hnz _ (List.getElem_mem ht)

theorem cart_write_fresh_spec (FS : Nat) (s : DriverState) (fd : Nat) (buf : List Nat)
    (n : Nat) (l : List files) (idx : Nat) (r : files)
    (hfs : s.filesystem = some l)
    (hlen : l.length = s.fileSystemSize + 1)
    (hscan : scanIdx (fun x => x.fileHandle == fd) l = some idx)
    (hget : l.get? idx = some r)
    (hopen : ¬ r.fileHandle = 0)
    (hlen0 : r.length = 0)
    (harrF : r.loc.occupiedFrames.length = 1)
    (harrC : r.loc.occupiedCartridges.length = 1)
    (hn : n ≤ FS)
    (hbuf : buf.length = n)
    (hnz : ∀ b ∈ buf, b ≠ 0)
    (hct16 : s.nextCartridge < 2 ^ 16) (hfr16 : s.nextFrame < 2 ^ 16)
    (hcap : 1 ≤ s.cache.myMaxFrames)
    (hsync : s.busLoaded = s.currentlyLoadedCartridge)
    (hcinv : cacheInv s.cache) :
    ∃ sW,
      cart_write FS s fd (fun j => buf.getD j 0) n = some (((n : Nat) : Int), sW) ∧
      sW.filesystem = some (l.set idx
        { r with
          loc := { cartridges := 0, occupiedCartridges := [s.nextCartridge],
                   frames := 0, occupiedFrames := [s.nextFrame] },
          length := n, filePointer := n }) ∧
      sW.fileSystemSize = s.fileSystemSize ∧
      cacheInv sW.cache ∧
      sW.busLoaded = s.nextCartridge ∧
      sW.currentlyLoadedCartridge = s.nextCartridge ∧
      (∃ d cc, get_cart_cache sW.cache s.nextCartridge s.nextFrame = (some d, cc) ∧
        ∀ j, j < n → d j = buf.getD j 0) := by
  obtain ⟨fj, hfj⟩ := List.length_eq_one.mp harrF
  obtain ⟨cj, hcj⟩ := List.length_eq_one.mp harrC
  have hbufnz : ∀ t, t < n → (fun j : Nat => buf.getD j 0) t ≠ 0 := by
    intro t ht
    exact getD_ne_zero hnz (by omega)
  obtain ⟨fs, sz, cl, nf, nc, ca, bs, bl, bt⟩ := s
  simp only at hfs hlen hct16 hfr16 hcap hsync hcinv
  subst hfs
  subst hsync
  simp only [cart_write]
  rw [if_neg (by rw [hlen]; exact fun hco => hco rfl)]
  simp only [hscan, hget]
  rw [if_neg hopen, if_pos hlen0]
  rw [hfj, hcj]
  rw [if_neg (by simp)]
  rw [if_neg (by omega)]
  simp only [List.set_cons_zero, List.getD_cons_zero]
  by_cases hroll : nf + 1 = FS
  · rw [if_pos hroll]
    obtain ⟨hw1, hw2, hw3, hw4, hw5, hw6⟩ :=
      writeFrameTail_spec ⟨some l, sz, bl, 0, nc + 1, ca, bs, bl, bt⟩ nc nf
        (fun j => if j < n then strncpyByte (fun t => buf.getD t 0) j else 0)
        rfl hcinv hct16
    refine ⟨_, rfl, rfl, hw2, hw3, hw4, hw5, ?_⟩
    obtain ⟨d, cc, hgd, hdb⟩ := hw6 hcap
    refine ⟨d, cc, hgd, ?_⟩
    intro j hj
    rw [hdb]
    show (if j < n then strncpyByte (fun t => buf.getD t 0) j else 0) = buf.getD j 0
    rw [if_pos hj]
    exact strncpyByte_nz hbufnz j hj
  · rw [if_neg hroll]
    obtain ⟨hw1, hw2, hw3, hw4, hw5, hw6⟩ :=
      writeFrameTail_spec ⟨some l, sz, bl, nf + 1, nc, ca, bs, bl, bt⟩ nc nf
        (fun j => if j < n then strncpyByte (fun t => buf.getD t 0) j else 0)
        rfl hcinv hct16
    refine ⟨_, rfl, rfl, hw2, hw3, hw4, hw5, ?_⟩
    obtain ⟨d, cc, hgd, hdb⟩ := hw6 hcap
    refine ⟨d, cc, hgd, ?_⟩
    intro j hj
    rw [hdb]
    show (if j < n then strncpyByte (fun t => buf.getD t 0) j else 0) = buf.getD j 0
    rw [if_pos hj]
    exact strncpyByte_nz hbufnz j hj

theorem lt_length_of_get?_some {α : Type} {l : List α} {i : Nat} {a : α}
    (h : l.get? i = some a) : i < l.length := by
  by_contra hc
  rw [List.get?_len_le (by omega)] at h
  cases h

theorem cart_seek_zero_spec (s : DriverState) (fd : Nat) (l : List files) (idx : Nat)
    (r1 : files)
    (hfs : s.filesystem = some (l.set idx r1))
    (hlen : l.length = s.fileSystemSize + 1)
    (hidx : idx < l.length)
    (hscan : scanIdx (fun x => x.fileHandle == fd) l = some idx)
    (hp1 : (r1.fileHandle == fd) = true)
    (hopen : ¬ r1.fileHandle = 0) :
    cart_seek s fd 0 =
      some (0, { s with filesystem := some (l.set idx { r1 with filePointer := 0 }) }) := by
  simp only [cart_seek, hfs]
  rw [if_neg (by rw [List.length_set, hlen]; exact fun hco => hco rfl)]
  simp only [scanIdx_set_stable hscan hp1, List.get?_set_eq_of_lt r1 hidx]
  rw [if_neg hopen, if_neg (Nat.not_lt_zero _)]
  rw [List.set_set]
theorem get?_lt_some {α : Type} {l : List α} {i : Nat} (h : i < l.length) :
    ∃ a, l.get? i = some a := by
  cases hg : l.get? i with
  | some a => exact ⟨a, rfl⟩
  | none =>
    rw [List.get?_eq_none] at hg
    omega

theorem option_bind_some {α β : Type} (a : α) (f : α → Option β) :
    Option.bind (some a) f = f a := rfl

theorem cart_write_zero_spec (FS : Nat) (s : DriverState) (fd : Nat) (buf : List Nat)
    (n : Nat) (l : List files) (idx : Nat) (r : files)
    (hfs : s.filesystem = some l)
    (hlen : l.length = s.fileSystemSize + 1)
    (hscan : scanIdx (fun x => x.fileHandle == fd) l = some idx)
    (hget : l.get? idx = some r)
    (hopen : ¬ r.fileHandle = 0)
    (hfp : r.filePointer = 0)
    (harrF : r.loc.occupiedFrames.length = r.loc.frames + 1)
    (harrC : r.loc.occupiedCartridges.length = r.loc.frames + 1)
    (hfresh : r.length = 0 → r.loc.frames = 0)
    (hn : n ≤ FS)
    (hbuf : buf.length = n)
    (hnz : ∀ b ∈ buf, b ≠ 0)
    (hct16 : s.nextCartridge < 2 ^ 16) (hfr16 : s.nextFrame < 2 ^ 16)
    (hc16m : ∀ c' ∈ r.loc.occupiedCartridges, c' < 2 ^ 16)
    (hf16m : ∀ f' ∈ r.loc.occupiedFrames, f' < 2 ^ 16)
    (hcap : 1 ≤ s.cache.myMaxFrames)
    (hsync : s.busLoaded = s.currentlyLoadedCartridge)
    (hcinv : cacheInv s.cache) :
    ∃ sW r1 c0 f0,
      cart_write FS s fd (fun j => buf.getD j 0) n = some (((n : Nat) : Int), sW) ∧
      sW.filesystem = some (l.set idx r1) ∧
      sW.fileSystemSize = s.fileSystemSize ∧
      r1.fileHandle = r.fileHandle ∧
      r1.filePointer = n ∧
      n ≤ r1.length ∧
      r1.loc.occupiedFrames.length = r1.loc.frames + 1 ∧
      r1.loc.occupiedCartridges.length = r1.loc.frames + 1 ∧
      (∀ c' ∈ r1.loc.occupiedCartridges, c' < 2 ^ 16) ∧
      (∀ f' ∈ r1.loc.occupiedFrames, f' < 2 ^ 16) ∧
      r1.loc.occupiedCartridges.get? 0 = some c0 ∧
      r1.loc.occupiedFrames.get? 0 = some f0 ∧
      cacheInv sW.cache ∧
      sW.busLoaded = sW.currentlyLoadedCartridge ∧
      (∃ d cc, get_cart_cache sW.cache c0 f0 = (some d, cc) ∧
        ∀ j, j < n → d j = buf.getD j 0) := by
  by_cases hlen0 : r.length = 0
  · obtain ⟨sW, hw, hwfs, hwsz, hwcinv, hwbl, hwcl, hwhit⟩ :=
      cart_write_fresh_spec FS s fd buf n l idx r hfs hlen hscan hget hopen hlen0
        (by rw [harrF, hfresh hlen0]) (by rw [harrC, hfresh hlen0]) hn hbuf hnz
        hct16 hfr16 hcap hsync hcinv
    refine ⟨sW, _, s.nextCartridge, s.nextFrame, hw, hwfs, hwsz, rfl, rfl, Nat.le_refl n,
      rfl, rfl, ?_, ?_, rfl, rfl, hwcinv, ?_, hwhit⟩
    · intro c' hc'
      rw [List.mem_singleton] at hc'
      rw [hc']
      exact hct16
    · intro f' hf'
      rw [List.mem_singleton] at hf'
      rw [hf']
      exact hfr16
    · rw [hwbl, hwcl]
  · have hbufnz : ∀ t, t < n → (fun j : Nat => buf.getD j 0) t ≠ 0 := by
      intro t ht
      exact getD_ne_zero hnz (by omega)
    obtain ⟨c0, hc0⟩ := get?_lt_some (l := r.loc.occupiedCartridges) (i := 0)
      (by rw [harrC]; omega)
    obtain ⟨f0, hf0⟩ := get?_lt_some (l := r.loc.occupiedFrames) (i := 0)
      (by rw [harrF]; omega)
    have hc016 : c0 < 2 ^ 16 := hc16m c0 (List.get?_mem hc0)
    have hf016 : f0 < 2 ^ 16 := hf16m f0 (List.get?_mem hf0)
    obtain ⟨fs, sz, cl, nf, nc, ca, bs, bl, bt⟩ := s
    simp only at hfs hlen hct16 hfr16 hcap hsync hcinv
    subst hfs
    subst hsync
    simp only [cart_write]
    rw [if_neg (by rw [hlen]; exact fun hco => hco rfl)]
    simp only [hscan, hget]
    rw [if_neg hopen, if_neg hlen0]
    rw [hfp]
    simp only [Nat.zero_add, Nat.zero_div, Nat.sub_zero, Nat.zero_mul]
    have halloc : ¬ (n > (r.loc.frames + 1) * FS) := by
      have hFSle : FS ≤ (r.loc.frames + 1) * FS := Nat.le_mul_of_pos_left FS (by omega)
      omega
    rw [if_neg halloc, if_neg halloc]
    have hend : (if n % FS ≠ 0 then n / FS else 0) = 0 := by
      by_cases hmod : n % FS ≠ 0
      · rw [if_pos hmod]
        have hnFS : n < FS := by
          rcases Nat.lt_or_ge n FS with h | h
          · exact h
          · exfalso
            have hEq : n = FS := le_antisymm hn h
            rw [hEq, Nat.mod_self] at hmod
            exact hmod rfl
        exact Nat.div_eq_of_lt hnFS
      · rw [if_neg hmod]
    rw [hend]
    simp only [Nat.zero_add, Nat.one_mul]
    rw [if_neg (by omega)]
    have hrange1 : List.range 1 = [0] := rfl
    rw [hrange1, foldlM_option_one]
    obtain ⟨σ1, X, hrs, hfs1, hsz1, hbs1, hsync1, hcinv1, hmax1, hdata1⟩ :=
      readSlot_spec FS r 0 0 ⟨some l, sz, bl, nf, nc, ca, bs, bl, bt⟩ zeroBuf c0 f0
        hc0 hf0 hc016 hf016 rfl hcinv
    rw [hrs]
    simp only [foldlM_option_one]
    rw [writeSlot_eq FS r 0 _ _ 0 c0 f0 hc0 hf0]
    simp only []
    have hcap1 : 1 ≤ σ1.cache.myMaxFrames := by
      rw [hmax1]
      exact hcap
    have hlb1 : ∀ t, t < n →
        shiftBuf (strncpyBuf (spliceBuf zeroBuf (FS * 0) FS X)
          (fun j => buf.getD j 0) 0 n) (FS * 0) t = buf.getD t 0 := by
      intro t ht
      show (if 0 ≤ FS * 0 + t ∧ FS * 0 + t < 0 + n then
          strncpyByte (fun j => buf.getD j 0) (FS * 0 + t - 0)
        else (spliceBuf zeroBuf (FS * 0) FS X) (FS * 0 + t)) = buf.getD t 0
      rw [if_pos ⟨Nat.zero_le _, by omega⟩]
      have harg : FS * 0 + t - 0 = t := by omega
      rw [harg]
      exact strncpyByte_nz hbufnz t ht
    have hsnz : ∀ t, t < n →
        shiftBuf (strncpyBuf (spliceBuf zeroBuf (FS * 0) FS X)
          (fun j => buf.getD j 0) 0 n) (FS * 0) t ≠ 0 := by
      intro t ht
      rw [hlb1 t ht]
      exact hbufnz t ht
    obtain ⟨ht1, ht2, ht3, ht4, ht5, ht6⟩ :=
      writeFrameTail_spec σ1 c0 f0
        (fun j => if j < FS then
          strncpyByte (shiftBuf (strncpyBuf (spliceBuf zeroBuf (FS * 0) FS X)
            (fun j => buf.getD j 0) 0 n) (FS * 0)) j else 0)
        hsync1 hcinv1 hc016
    obtain ⟨d, cc, hgd, hdsob⟩ := ht6 hcap1
    have hdv : ∀ j, j < n → d j = buf.getD j 0 := by
      intro j hj
      rw [hdsob]
      show (if j < FS then
        strncpyByte (shiftBuf (strncpyBuf (spliceBuf zeroBuf (FS * 0) FS X)
          (fun j => buf.getD j 0) 0 n) (FS * 0)) j else 0) = buf.getD j 0
      rw [if_pos (by omega)]
      exact (strncpyByte_nz hsnz j hj).trans (hlb1 j hj)
    by_cases hgrow : r.length < n
    · rw [if_pos hgrow]
      refine ⟨_, _, c0, f0, rfl, rfl, ht2.trans hsz1, rfl, ?_, ?_, harrF, harrC,
        hc16m, hf16m, hc0, hf0, ht3, ht4.trans ht5.symm, d, cc, hgd, hdv⟩
      · show r.length + n - r.length = n
        omega
      · show n ≤ r.length + n - r.length
        omega
    · rw [if_neg hgrow]
      refine ⟨_, _, c0, f0, rfl, rfl, ht2.trans hsz1, rfl, rfl, ?_, harrF, harrC,
        hc16m, hf16m, hc0, hf0, ht3, ht4.trans ht5.symm, d, cc, hgd, hdv⟩
      show n ≤ r.length
      omega

theorem cart_read_one_spec (FS : Nat) (s : DriverState) (fd : Nat) (outBuf : Buf)
    (n : Nat) (l2 : List files) (idx : Nat) (r2 : files) (c0 f0 : Nat) (v : Buf)
    (hfs : s.filesystem = some l2)
    (hlen : l2.length = s.fileSystemSize + 1)
    (hscan : scanIdx (fun x => x.fileHandle == fd) l2 = some idx)
    (hget : l2.get? idx = some r2)
    (hopen : ¬ r2.fileHandle = 0)
    (hfp : r2.filePointer = 0)
    (harrF : r2.loc.occupiedFrames.length = r2.loc.frames + 1)
    (harrC : r2.loc.occupiedCartridges.length = r2.loc.frames + 1)
    (hc16m : ∀ c' ∈ r2.loc.occupiedCartridges, c' < 2 ^ 16)
    (hf16m : ∀ f' ∈ r2.loc.occupiedFrames, f' < 2 ^ 16)
    (hc0 : r2.loc.occupiedCartridges.get? 0 = some c0)
    (hf0 : r2.loc.occupiedFrames.get? 0 = some f0)
    (hnlen : n ≤ r2.length)
    (hn : n ≤ FS)
    (hsync : s.busLoaded = s.currentlyLoadedCartridge)
    (hcinv : cacheInv s.cache)
    (hhit : ∃ d cc, get_cart_cache s.cache c0 f0 = (some d, cc) ∧
      ∀ j, j < n → d j = v j)
    (hvnz : ∀ j, j < n → v j ≠ 0) :
    ∃ out1 sR, cart_read FS s fd outBuf n = some (((n : Nat) : Int), out1, sR) ∧
      ∀ j, j < n → out1 j = v j := by
  obtain ⟨d0, cc0, hg0, hd0v⟩ := hhit
  have hc016 : c0 < 2 ^ 16 := hc16m c0 (List.get?_mem hc0)
  have hf016 : f0 < 2 ^ 16 := hf16m f0 (List.get?_mem hf0)
  obtain ⟨σ1, X, hrs, hfs1, hsz1, hbs1, hsync1, hcinv1, hmax1, hdata1⟩ :=
    readSlot_spec FS r2 0 0 s zeroBuf c0 f0 hc0 hf0 hc016 hf016 hsync hcinv
  have hXv : ∀ j, j < n → X j = v j := by
    rcases hdata1 with ⟨cc, hhit2⟩ | ⟨hmiss, hXbus⟩
    · rw [hg0] at hhit2
      injection hhit2 with h1 h2
      injection h1 with h1
      intro j hj
      rw [← h1]
      exact hd0v j hj
    · rw [hg0] at hmiss
      exact Option.noConfusion hmiss
  simp only [cart_read, hfs]
  rw [if_neg (by rw [hlen]; exact fun hco => hco rfl)]
  simp only [hscan, hget]
  rw [if_neg hopen]
  simp only [hfp, Nat.zero_add, Nat.zero_div, Nat.sub_zero]
  by_cases hE : min (n / FS) r2.loc.frames = 0
  · have hrange : List.range (min (n / FS) r2.loc.frames + 1) = [0] := by
      rw [hE]
      rfl
    rw [hrange, foldlM_option_one, hrs]
    simp only [Nat.zero_mul, Nat.sub_zero]
    rw [if_neg (by omega)]
    refine ⟨_, _, rfl, ?_⟩
    intro j hj
    have hsrc : ∀ t, t < n → shiftBuf (spliceBuf zeroBuf (FS * 0) FS X) 0 t = X t := by
      intro t ht
      show (if FS * 0 ≤ 0 + t ∧ 0 + t < FS * 0 + FS then X (0 + t - FS * 0)
        else zeroBuf (0 + t)) = X t
      rw [if_pos ⟨by omega, by omega⟩]
      congr 1
      omega
    show strncpyBuf outBuf (shiftBuf (spliceBuf zeroBuf (FS * 0) FS X) 0) 0 n j = v j
    show (if 0 ≤ j ∧ j < 0 + n then
      strncpyByte (shiftBuf (spliceBuf zeroBuf (FS * 0) FS X) 0) (j - 0)
      else outBuf j) = v j
    rw [if_pos ⟨Nat.zero_le j, by omega⟩]
    have hnz2 : ∀ t, t < n → shiftBuf (spliceBuf zeroBuf (FS * 0) FS X) 0 t ≠ 0 := by
      intro t ht
      rw [hsrc t ht, hXv t ht]
      exact hvnz t ht
    have hj0 : j - 0 = j := rfl
    rw [hj0, strncpyByte_nz hnz2 j hj, hsrc j hj, hXv j hj]
  · have hfr1 : 1 ≤ r2.loc.frames := by
      rcases Nat.eq_zero_or_pos r2.loc.frames with h | h
      · rw [h] at hE
        simp at hE
      · exact h
    have hdiv1 : 1 ≤ n / FS := by
      rcases Nat.eq_zero_or_pos (n / FS) with h | h
      · rw [h] at hE
        simp at hE
      · exact h
    have hFS0 : 0 < FS := by
      by_contra hc
      have h0 : FS = 0 := by omega
      rw [h0, Nat.div_zero] at hdiv1
      omega
    have hnFS : n = FS := by
      have hle : FS ≤ n := (Nat.one_le_div_iff hFS0).mp hdiv1
      omega
    have hdivFS : n / FS = 1 := by rw [hnFS, Nat.div_self hFS0]
    have hmin1 : min (n / FS) r2.loc.frames = 1 := by
      rw [hdivFS]
      exact Nat.min_eq_left hfr1
    have hrange : List.range (min (n / FS) r2.loc.frames + 1) = [0, 1] := by
      rw [hmin1]
      rfl
    obtain ⟨c1, hc1⟩ := get?_lt_some (l := r2.loc.occupiedCartridges) (i := 1)
      (by rw [harrC]; omega)
    obtain ⟨f1, hf1⟩ := get?_lt_some (l := r2.loc.occupiedFrames) (i := 1)
      (by rw [harrF]; omega)
    have hc116 : c1 < 2 ^ 16 := hc16m c1 (List.get?_mem hc1)
    have hf116 : f1 < 2 ^ 16 := hf16m f1 (List.get?_mem hf1)
    obtain ⟨σ2, Y, hrs2, hfs2, hsz2, hbs2, hsync2, hcinv2, hmax2, hdata2⟩ :=
      readSlot_spec FS r2 0 1 σ1 (spliceBuf zeroBuf (FS * 0) FS X) c1 f1
        hc1 hf1 hc116 hf116 hsync1 hcinv1
    rw [hrange, foldlM_option_two, hrs]
    simp only [option_bind_some]
    rw [hrs2]
    simp only [Nat.zero_mul, Nat.sub_zero]
    rw [if_neg (by omega)]
    refine ⟨_, _, rfl, ?_⟩
    intro j hj
    have hsrc2 : ∀ t, t < n →
        shiftBuf (spliceBuf (spliceBuf zeroBuf (FS * 0) FS X) (FS * 1) FS Y) 0 t = X t := by
      intro t ht
      show (if FS * 1 ≤ 0 + t ∧ 0 + t < FS * 1 + FS then Y (0 + t - FS * 1)
        else (spliceBuf zeroBuf (FS * 0) FS X) (0 + t)) = X t
      rw [if_neg (by rw [hnFS] at ht; omega)]
      show (if FS * 0 ≤ 0 + t ∧ 0 + t < FS * 0 + FS then X (0 + t - FS * 0)
        else zeroBuf (0 + t)) = X t
      rw [if_pos ⟨by omega, by omega⟩]
      congr 1
      omega
    show strncpyBuf outBuf
      (shiftBuf (spliceBuf (spliceBuf zeroBuf (FS * 0) FS X) (FS * 1) FS Y) 0) 0 n j = v j
    show (if 0 ≤ j ∧ j < 0 + n then
      strncpyByte (shiftBuf (spliceBuf (spliceBuf zeroBuf (FS * 0) FS X) (FS * 1) FS Y) 0)
        (j - 0)
      else outBuf j) = v j
    rw [if_pos ⟨Nat.zero_le j, by omega⟩]
    have hnz2 : ∀ t, t < n →
        shiftBuf (spliceBuf (spliceBuf zeroBuf (FS * 0) FS X) (FS * 1) FS Y) 0 t ≠ 0 := by
      intro t ht
      rw [hsrc2 t ht, hXv t ht]
      exact hvnz t ht
    have hj0 : j - 0 = j := rfl
    rw [hj0, strncpyByte_nz hnz2 j hj, hsrc2 j hj, hXv j hj]

/-- C2 (corrected): for any open file handle with its cursor at offset 0, a
buffer of `n ≤ CART_FRAME_SIZE` bytes all of which are nonzero, and a
cache of capacity at least 1, `cart_write` returns `n`, `cart_seek` back to 0
succeeds, and `cart_read` of `n` bytes returns `n` with the caller's buffer
holding exactly the bytes written.  Both provisos are necessary: the driver
moves bytes with `strncpy`, which truncates at the first zero byte
(`write_read_roundtrip_nul_counterexample`), and the frame contents survive
only in the cache, because the in-src client sends the pointer's bytes
instead of the frame on a bus WRITE (`cart_client.c` line 146), so nothing
written ever reaches the controller. -/
theorem write_read_roundtrip (FS : Nat) (s : DriverState) (fd : Nat) (buf : List Nat)
    (n : Nat) (l : List files) (idx : Nat) (r : files) (outBuf : Buf)
    (hfs : s.filesystem = some l)
    (hlen : l.length = s.fileSystemSize + 1)
    (hscan : scanIdx (fun x => x.fileHandle == fd) l = some idx)
    (hget : l.get? idx = some r)
    (hopen : ¬ r.fileHandle = 0)
    (hfp : r.filePointer = 0)
    (harrF : r.loc.occupiedFrames.length = r.loc.frames + 1)
    (harrC : r.loc.occupiedCartridges.length = r.loc.frames + 1)
    (hfresh : r.length = 0 → r.loc.frames = 0)
    (hn : n ≤ FS)
    (hbuf : buf.length = n)
    (hnz : ∀ b ∈ buf, b ≠ 0)
    (hct16 : s.nextCartridge < 2 ^ 16) (hfr16 : s.nextFrame < 2 ^ 16)
    (hc16m : ∀ c' ∈ r.loc.occupiedCartridges, c' < 2 ^ 16)
    (hf16m : ∀ f' ∈ r.loc.occupiedFrames, f' < 2 ^ 16)
    (hcap : 1 ≤ s.cache.myMaxFrames)
    (hsync : s.busLoaded = s.currentlyLoadedCartridge)
    (hcinv : cacheInv s.cache) :
    ∃ sW sS out1 sR,
      cart_write FS s fd (fun j => buf.getD j 0) n = some (((n : Nat) : Int), sW) ∧
      cart_seek sW fd 0 = some (0, sS) ∧
      cart_read FS sS fd outBuf n = some (((n : Nat) : Int), out1, sR) ∧
      ∀ j, j < n → out1 j = buf.getD j 0 := by
  obtain ⟨sW, r1, c0, f0, hw, hwfs, hwsz, hwh, hwfp, hwlen, hwaF, hwaC, hwc16, hwf16,
      hwc0, hwf0, hwcinv, hwsync, hwhit⟩ :=
    cart_write_zero_spec FS s fd buf n l idx r hfs hlen hscan hget hopen hfp
      harrF harrC hfresh hn hbuf hnz hct16 hfr16 hc16m hf16m hcap hsync hcinv
  have hidx : idx < l.length := lt_length_of_get?_some hget
  obtain ⟨x, hx, hpx⟩ := scanIdx_some hscan
  rw [hget] at hx
  injection hx with hx
  subst hx
  have hp1 : (r1.fileHandle == fd) = true := by
    rw [hwh]
    exact hpx
  have hopen1 : ¬ r1.fileHandle = 0 := by
    rw [hwh]
    exact hopen
  have hseek := cart_seek_zero_spec sW fd l idx r1 hwfs
    (by rw [hwsz]; exact hlen) hidx hscan hp1 hopen1
  obtain ⟨out1, sR, hr, hout⟩ :=
    cart_read_one_spec FS
      { sW with filesystem := some (l.set idx { r1 with filePointer := 0 }) } fd outBuf n
      (l.set idx { r1 with filePointer := 0 }) idx { r1 with filePointer := 0 } c0 f0
      (fun j => buf.getD j 0)
      rfl
      (by rw [List.length_set]; show l.length = sW.fileSystemSize + 1; rw [hwsz]; exact hlen)
      (scanIdx_set_stable hscan hp1)
      (List.get?_set_eq_of_lt _ hidx)
      hopen1
      rfl
      hwaF hwaC hwc16 hwf16 hwc0 hwf0
      hwlen hn
      hwsync
      hwcinv
      hwhit
      (fun j hj => getD_ne_zero hnz (by omega))
  exact ⟨sW, _, out1, sR, hw, hseek, hr, hout⟩

/-- The original C2 claim is false without the nonzero proviso: writing the
two bytes `[0, 65]` to a fresh file (frame size 2) and reading them back
yields 0 in place of 65, because `strncpy` stops copying at the first zero
byte and zero-fills the rest. -/
theorem write_read_roundtrip_nul_counterexample :
    ∃ sW sS out1 sR,
      cart_write 2 drvA 1 (fun j => [0, 65].getD j 0) 2 = some (((2 : Nat) : Int), sW) ∧
      cart_seek sW 1 0 = some (0, sS) ∧
      cart_read 2 sS 1 bufZ 2 = some (((2 : Nat) : Int), out1, sR) ∧
      out1 1 ≠ 65 := by
  refine ⟨_, _, _, _, rfl, rfl, rfl, ?_⟩
  decide

theorem write_read_roundtrip_witness :
    ∃ sW sS out1 sR,
      cart_write 2 drvA 1 (fun j => [1, 2].getD j 0) 2 = some (((2 : Nat) : Int), sW) ∧
      cart_seek sW 1 0 = some (0, sS) ∧
      cart_read 2 sS 1 bufZ 2 = some (((2 : Nat) : Int), out1, sR) ∧
      ∀ j, j < 2 → out1 j = [1, 2].getD j 0 :=
  write_read_roundtrip 2 drvA 1 [1, 2] 2
    [{ fileName := [97], length := 0, filePointer := 0,
       loc := { cartridges := 0, occupiedCartridges := [0], frames := 0,
                occupiedFrames := [0] },
       fileHandle := 1 }] 0
    { fileName := [97], length := 0, filePointer := 0,
      loc := { cartridges := 0, occupiedCartridges := [0], frames := 0,
               occupiedFrames := [0] },
      fileHandle := 1 }
    bufZ rfl rfl rfl rfl (by decide) rfl rfl rfl (fun _ => rfl) (by decide) rfl
    (by decide) (by decide) (by decide) (by decide) (by decide) (by decide) rfl
    (init_cart_cache_inv 2 junk0)
